import Mathlib

/-!
# Verification of the fulcrum-sdk dispatch/improvements clients

Shallow embedding of `fulcrum_sdk._internal.dispatch.redaction`,
`fulcrum_sdk._internal.dispatch.models`, `fulcrum_sdk._internal.dispatch.client`
and `fulcrum_sdk._internal.improvements.client` (Python), together with proofs
of the specification's testable properties.

Python values appearing in JSON-compatible payloads are modelled by the
inductive type `Val` (dicts as ordered association lists, which is how Python
dicts behave under iteration); Python dict keys by `PyKey` (a string key or a
non-string hashable scalar).  Python strings used in length-sensitive
positions are modelled as `List Char` (Python `len`/slicing operate on code
points).  Fallible Python code is modelled with `Except PyExn`; the outcome of
one HTTP round trip is the `HttpOutcome` parameter threaded into each client
method (the transport is an external collaborator).
-/

namespace FulcrumSdk

/-- A Python dict key: a string, an int, or a bool (the hashable scalars that
can appear as JSON-ish payload keys).  Python equality on these never
identifies a non-string with a string, which is what membership of a key in
the `frozenset` of sensitive names tests. -/
inductive PyKey where
  | kstr (s : String)
  | kint (n : Int)
  | kbool (b : Bool)
deriving DecidableEq, Repr

/-- A JSON-compatible Python value: mapping, sequence, or scalar
(string / int / bool / None).  Mappings are ordered association lists,
matching Python dict iteration order. -/
inductive Val where
  | vstr (s : String)
  | vint (n : Int)
  | vbool (b : Bool)
  | vnull
  | vlist (items : List Val)
  | vdict (entries : List (PyKey × Val))
deriving Repr

/-! ## `redaction.py` -/

/-- `REDACT_KEYS` from `redaction.py`: the frozenset of sensitive key names
(all lower-case strings). -/
def REDACT_KEYS : List String :=
  ["api_key", "token", "secret", "password", "access_key", "refresh_token",
   "authorization", "auth_token", "private_key", "secret_key", "credentials"]

/-- The members of the Python frozenset, as dict keys (they are all strings);
`key_lower in REDACT_KEYS` is membership of a `PyKey` in this set under
Python equality. -/
def REDACT_KEYS_PY : List PyKey := REDACT_KEYS.map PyKey.kstr

/-- `REDACTED_VALUE` from `redaction.py`. -/
def REDACTED_VALUE : String := "[REDACTED]"

/-- Python's `str.lower()`, character-wise (all sensitive key names are
ASCII, for which per-character lowering agrees with Python's Unicode
lowering as far as set membership is concerned). -/
def pyLower (s : String) : String := String.mk (s.data.map Char.toLower)

/-- `key.lower() if isinstance(key, str) else key` from `_redact_recursive`. -/
def pyKeyLower (k : PyKey) : PyKey :=
  match k with
  | .kstr s => .kstr (pyLower s)
  | k => k

mutual

/-- `_redact_recursive` from `redaction.py`. -/
def redactRecursive : Val → Val
  | .vdict entries => .vdict (redactEntries entries)
  | .vlist items => .vlist (redactItems items)
  | v => v

/-- The dict branch of `_redact_recursive`: the loop
`for key, value in obj.items()`. -/
def redactEntries : List (PyKey × Val) → List (PyKey × Val)
  | [] => []
  | (key, value) :: rest =>
      let keyLower := pyKeyLower key
      (if REDACT_KEYS_PY.contains keyLower then (key, Val.vstr REDACTED_VALUE)
       else (key, redactRecursive value)) :: redactEntries rest

/-- The list branch of `_redact_recursive`:
`[_redact_recursive(item) for item in obj]`. -/
def redactItems : List Val → List Val
  | [] => []
  | item :: rest => redactRecursive item :: redactItems rest

end

mutual

/-- `_deep_copy` from `redaction.py`. -/
def deepCopy : Val → Val
  | .vdict entries => .vdict (deepCopyEntries entries)
  | .vlist items => .vlist (deepCopyItems items)
  | v => v

/-- The dict branch of `_deep_copy`. -/
def deepCopyEntries : List (PyKey × Val) → List (PyKey × Val)
  | [] => []
  | (key, value) :: rest => (key, deepCopy value) :: deepCopyEntries rest

/-- The list branch of `_deep_copy`. -/
def deepCopyItems : List Val → List Val
  | [] => []
  | item :: rest => deepCopy item :: deepCopyItems rest

end

/-- `redact_payload` from `redaction.py`. -/
def redact_payload (payload : Val) (skip_redaction : Bool := false) : Val :=
  if skip_redaction then deepCopy payload
  else redactRecursive payload

/-! ## Spec-side description of redaction (written from the spec's words,
for comparison with the source embedding above) -/

/-- Spec-side key matching: a mapping key matches iff it is a string whose
lower-cased form is a member of the sensitive-key set; non-string keys are
always non-matching. -/
def isSensitiveKey (k : PyKey) : Bool :=
  match k with
  | .kstr s => REDACT_KEYS.contains (pyLower s)
  | _ => false

/-- Spec-side redaction: matching mapping entries get the sentinel (children
never descended into), non-matching entries recurse, sequences map
element-wise in order, scalars pass through unchanged. -/
def redactSpec : Val → Val
  | .vstr s => .vstr s
  | .vint n => .vint n
  | .vbool b => .vbool b
  | .vnull => .vnull
  | .vlist items => .vlist (items.attach.map fun x => redactSpec x.1)
  | .vdict entries => .vdict (entries.attach.map fun x =>
      if isSensitiveKey x.1.1 then (x.1.1, Val.vstr REDACTED_VALUE)
      else (x.1.1, redactSpec x.1.2))
termination_by v => sizeOf v
decreasing_by
  · have h := List.sizeOf_lt_of_mem x.2
    simp only [Val.vlist.sizeOf_spec]
    omega
  · have h := List.sizeOf_lt_of_mem x.2
    have h2 : sizeOf x.1.2 < sizeOf x.1 := by
      obtain ⟨⟨k, v⟩, hm⟩ := x
      show sizeOf v < sizeOf (k, v)
      simp only [Prod.mk.sizeOf_spec]
      omega
    simp only [Val.vdict.sizeOf_spec]
    omega

/-! ## An induction principle for `Val` -/

/-- Structural induction over `Val` with membership hypotheses for the
children of lists and dicts. -/
theorem valInduct (P : Val → Prop)
    (hstr : ∀ s, P (.vstr s)) (hint : ∀ n, P (.vint n))
    (hbool : ∀ b, P (.vbool b)) (hnull : P .vnull)
    (hlist : ∀ items, (∀ v ∈ items, P v) → P (.vlist items))
    (hdict : ∀ entries, (∀ kv ∈ entries, P kv.2) → P (.vdict entries)) :
    ∀ v, P v
  | .vstr s => hstr s
  | .vint n => hint n
  | .vbool b => hbool b
  | .vnull => hnull
  | .vlist items =>
      hlist items (fun v hv =>
        valInduct P hstr hint hbool hnull hlist hdict v)
  | .vdict entries =>
      hdict entries (fun kv hkv =>
        valInduct P hstr hint hbool hnull hlist hdict kv.2)
termination_by v => sizeOf v
decreasing_by
  · have h := List.sizeOf_lt_of_mem hv
    simp only [Val.vlist.sizeOf_spec]
    omega
  · have h := List.sizeOf_lt_of_mem hkv
    have h2 : sizeOf kv.2 < sizeOf kv := by
      obtain ⟨k, v⟩ := kv
      show sizeOf v < sizeOf (k, v)
      simp only [Prod.mk.sizeOf_spec]
      omega
    simp only [Val.vdict.sizeOf_spec]
    omega

/-! ## Basic rewriting lemmas for the redaction loops -/

theorem redactItems_eq_map (items : List Val) :
    redactItems items = items.map redactRecursive := by
  induction items with
  | nil => simp [redactItems]
  | cons v rest ih => simp [redactItems, ih]

theorem redactEntries_eq_map (entries : List (PyKey × Val)) :
    redactEntries entries = entries.map (fun kv =>
      if REDACT_KEYS_PY.contains (pyKeyLower kv.1) then (kv.1, Val.vstr REDACTED_VALUE)
      else (kv.1, redactRecursive kv.2)) := by
  induction entries with
  | nil => simp [redactEntries]
  | cons kv rest ih =>
      obtain ⟨k, v⟩ := kv
      simp [redactEntries, ih]

theorem deepCopyItems_eq_map (items : List Val) :
    deepCopyItems items = items.map deepCopy := by
  induction items with
  | nil => simp [deepCopyItems]
  | cons v rest ih => simp [deepCopyItems, ih]

theorem deepCopyEntries_eq_map (entries : List (PyKey × Val)) :
    deepCopyEntries entries = entries.map (fun kv => (kv.1, deepCopy kv.2)) := by
  induction entries with
  | nil => simp [deepCopyEntries]
  | cons kv rest ih =>
      obtain ⟨k, v⟩ := kv
      simp [deepCopyEntries, ih]

/-- Membership of the lower-cased key in the frozenset (Python equality
semantics: a non-string key equals no string member) agrees with the
spec-side key matching. -/
theorem contains_redactKeysPy_eq (k : PyKey) :
    REDACT_KEYS_PY.contains (pyKeyLower k) = isSensitiveKey k := by
  apply Bool.coe_iff_coe.mp
  cases k with
  | kstr s =>
      simp [pyKeyLower, isSensitiveKey, REDACT_KEYS_PY]
  | kint n =>
      simp [pyKeyLower, isSensitiveKey, REDACT_KEYS_PY]
  | kbool b =>
      simp [pyKeyLower, isSensitiveKey, REDACT_KEYS_PY]

/-- Unfolding lemma for `redactSpec` on a list. -/
theorem redactSpec_vlist (items : List Val) :
    redactSpec (.vlist items) = .vlist (items.map redactSpec) := by
  rw [redactSpec]
  simp

/-- Unfolding lemma for `redactSpec` on a dict. -/
theorem redactSpec_vdict (entries : List (PyKey × Val)) :
    redactSpec (.vdict entries) = .vdict (entries.map fun kv =>
      if isSensitiveKey kv.1 then (kv.1, Val.vstr REDACTED_VALUE)
      else (kv.1, redactSpec kv.2)) := by
  rw [redactSpec]
  rw [List.attach_map_val entries (fun kv =>
    if isSensitiveKey kv.1 then (kv.1, Val.vstr REDACTED_VALUE)
    else (kv.1, redactSpec kv.2))]

/-- The source's `_redact_recursive` computes exactly the spec-side
redaction. -/
theorem redactRecursive_eq_spec (v : Val) : redactRecursive v = redactSpec v := by
  induction v using valInduct with
  | hstr s => simp [redactRecursive, redactSpec]
  | hint n => simp [redactRecursive, redactSpec]
  | hbool b => simp [redactRecursive, redactSpec]
  | hnull => simp [redactRecursive, redactSpec]
  | hlist items ih =>
      rw [redactRecursive, redactSpec_vlist, redactItems_eq_map]
      congr 1
      exact List.map_congr_left ih
  | hdict entries ih =>
      rw [redactRecursive, redactSpec_vdict, redactEntries_eq_map]
      congr 1
      apply List.map_congr_left
      intro kv hkv
      rw [contains_redactKeysPy_eq]
      by_cases h : isSensitiveKey kv.1
      · simp [h]
      · simp [h, ih kv hkv]

/-- **C1.** `redact(P, false)` equals the spec-side redaction: every mapping
entry whose key is a string lower-casing to a member of the sensitive-key set
gets the sentinel `"[REDACTED]"` (never descending into the original value),
every non-matching entry's value is the recursive redaction of the original,
sequences map element-wise in order, scalars pass through unchanged, and keys
whose lower-cased form is not in the set (including non-string keys) are
never redacted. -/
theorem redact_false_eq_redactSpec (payload : Val) :
    redact_payload payload false = redactSpec payload := by
  rw [redact_payload]
  simp [redactRecursive_eq_spec]

/-- Redacting a second time changes nothing (`_redact_recursive` is
idempotent). -/
theorem redactRecursive_idem (v : Val) :
    redactRecursive (redactRecursive v) = redactRecursive v := by
  induction v using valInduct with
  | hstr s => simp [redactRecursive]
  | hint n => simp [redactRecursive]
  | hbool b => simp [redactRecursive]
  | hnull => simp [redactRecursive]
  | hlist items ih =>
      rw [redactRecursive, redactRecursive, redactItems_eq_map,
        redactItems_eq_map, List.map_map]
      congr 1
      apply List.map_congr_left
      intro v hv
      exact ih v hv
  | hdict entries ih =>
      rw [redactRecursive, redactRecursive, redactEntries_eq_map,
        redactEntries_eq_map, List.map_map]
      congr 1
      apply List.map_congr_left
      intro kv hkv
      dsimp only [Function.comp]
      by_cases h : REDACT_KEYS_PY.contains (pyKeyLower kv.1)
      · rw [if_pos h]
        dsimp only
        rw [if_pos h]
      · rw [if_neg h]
        dsimp only
        rw [if_neg h, ih kv hkv]

/-- **C6.** Redaction is idempotent:
`redact(redact(P, false), false) = redact(P, false)`; moreover the sentinel
string `"[REDACTED]"` is itself never treated as a sensitive key. -/
theorem redact_payload_idem (P : Val) :
    redact_payload (redact_payload P false) false = redact_payload P false ∧
      isSensitiveKey (.kstr REDACTED_VALUE) = false := by
  constructor
  · rw [redact_payload, redact_payload]
    simp [redactRecursive_idem]
  · rfl

/-! ## `json.dumps` (default options: `ensure_ascii=True`, separators
`", "` and `": "`) and the size bounder `_truncate_payload` shared by
`dispatch/client.py` and `improvements/client.py` -/

/-- A lower-case hex digit. -/
def hexDigit (n : Nat) : Char :=
  if n < 10 then Char.ofNat (48 + n) else Char.ofNat (87 + n)

/-- Four lower-case hex digits, as produced by `\u escape` escapes. -/
def hex4 (n : Nat) : List Char :=
  [hexDigit (n / 4096 % 16), hexDigit (n / 256 % 16),
   hexDigit (n / 16 % 16), hexDigit (n % 16)]

/-- One character of `json.dumps`'s ASCII string escaping
(`py_encode_basestring_ascii`): the short escapes, printable ASCII
passthrough, `\u escape` for everything else, surrogate pairs above
`0xFFFF`. -/
def pyJsonEscapeChar (c : Char) : List Char :=
  if c = '\\' then ['\\', '\\']
  else if c = '"' then ['\\', '"']
  else if c = '\n' then ['\\', 'n']
  else if c = '\r' then ['\\', 'r']
  else if c = '\t' then ['\\', 't']
  else if c.toNat = 8 then ['\\', 'b']
  else if c.toNat = 12 then ['\\', 'f']
  else if 0x20 ≤ c.toNat ∧ c.toNat ≤ 0x7e then [c]
  else if c.toNat < 0x10000 then '\\' :: 'u' :: hex4 c.toNat
  else
    let v := c.toNat - 0x10000
    ('\\' :: 'u' :: hex4 (0xD800 + v / 0x400)) ++
      ('\\' :: 'u' :: hex4 (0xDC00 + v % 0x400))

/-- Escape every character of a string. -/
def pyJsonEscape : List Char → List Char
  | [] => []
  | c :: rest => pyJsonEscapeChar c ++ pyJsonEscape rest

/-- A JSON string literal for `s`. -/
def pyJsonStr (s : String) : List Char :=
  '"' :: pyJsonEscape s.data ++ ['"']

/-- How `json.dumps` renders a dict key: string keys are escaped, int and
bool keys are coerced to their string form. -/
def pyJsonKey (k : PyKey) : List Char :=
  match k with
  | .kstr s => pyJsonStr s
  | .kint n => '"' :: (toString n).data ++ ['"']
  | .kbool b => '"' :: (if b then "true" else "false").data ++ ['"']

mutual

/-- `json.dumps(v)` with CPython's default options. -/
def pyJsonDumps : Val → List Char
  | .vstr s => pyJsonStr s
  | .vint n => (toString n).data
  | .vbool b => (if b then "true" else "false").data
  | .vnull => "null".data
  | .vlist items => '[' :: pyJsonDumpsItems items ++ [']']
  | .vdict entries => '\x7b' :: pyJsonDumpsEntries entries ++ ['\x7d']

/-- List elements joined by the item separator `", "`. -/
def pyJsonDumpsItems : List Val → List Char
  | [] => []
  | [v] => pyJsonDumps v
  | v :: rest => pyJsonDumps v ++ (',' :: ' ' :: pyJsonDumpsItems rest)

/-- Dict entries `key: value` joined by the item separator `", "`. -/
def pyJsonDumpsEntries : List (PyKey × Val) → List Char
  | [] => []
  | [(k, v)] => pyJsonKey k ++ (':' :: ' ' :: pyJsonDumps v)
  | (k, v) :: rest =>
      pyJsonKey k ++ (':' :: ' ' :: pyJsonDumps v) ++
        (',' :: ' ' :: pyJsonDumpsEntries rest)

end

/-- UTF-8 byte length of one character (`len(c.encode("utf-8"))`). -/
def charUtf8Len (c : Char) : Nat :=
  if c.toNat < 0x80 then 1
  else if c.toNat < 0x800 then 2
  else if c.toNat < 0x10000 then 3
  else 4

/-- UTF-8 byte length of a string (`len(s.encode("utf-8"))`). -/
def utf8Len (cs : List Char) : Nat := (cs.map charUtf8Len).sum

/-- `_truncate_payload` from `DispatchClient` / `ImprovementsClient`
(identical in both): serialize, measure, and either pass the payload
through unchanged or replace it whole by the truncation notice. -/
def truncate_payload (max_bytes : Int) (payload : Val) : Val :=
  let payload_json := pyJsonDumps payload
  if (utf8Len payload_json : Int) ≤ max_bytes then payload
  else
    .vdict [(.kstr "_truncated", .vbool true),
            (.kstr "_original_size", .vint (utf8Len payload_json)),
            (.kstr "_max_size", .vint max_bytes)]

/-! ## `dispatch/models.py`: constants, `DispatchEntry` and its validation

Python strings in length-sensitive positions are `List Char` (Python `len`
and slicing count code points).  Pydantic's `ValidationError` and the other
Python exceptions a client method can swallow are collapsed into `PyExn`. -/

def SUMMARY_MAX_LENGTH : Nat := 512
def PAYLOAD_MAX_SIZE_BYTES : Nat := 64 * 1024
def KIND_MAX_LENGTH : Nat := 64
def SOURCE_MAX_LENGTH : Nat := 32
def SCHEMA_VERSION : Int := 1

/-- The exceptions that can arise inside a client method: a builtin
`ValueError` (e.g. from `int()`), a pydantic `ValidationError`, or an
`httpx` transport exception (connection failure, timeout, ...). -/
inductive PyExn where
  | valueError (msg : String)
  | validationError (msg : String)
  | transportError (msg : String)
deriving DecidableEq, Repr

/-- The `kind` field's checks on `DispatchEntry`:
`Field(max_length=KIND_MAX_LENGTH)` plus the `kind_not_empty` validator. -/
def validateKind (kind : List Char) : Except PyExn (List Char) :=
  if kind.length > KIND_MAX_LENGTH then
    .error (.validationError "kind too long")
  else if kind = [] then
    .error (.validationError "kind must not be empty")
  else .ok kind

/-- The `summary` field's checks on `DispatchEntry`:
`Field(max_length=SUMMARY_MAX_LENGTH)` plus the `summary_single_line`
validator. -/
def validateSummary (summary : List Char) : Except PyExn (List Char) :=
  if summary.length > SUMMARY_MAX_LENGTH then
    .error (.validationError "summary too long")
  else if summary.contains '\n' then
    .error (.validationError "summary must be a single line (no newlines)")
  else .ok summary

/-- The `source` field's check: `Field(max_length=SOURCE_MAX_LENGTH)`. -/
def validateSource (source : List Char) : Except PyExn (List Char) :=
  if source.length > SOURCE_MAX_LENGTH then
    .error (.validationError "source too long")
  else .ok source

/-- The `payload` field's check on `DispatchEntry` and `ImprovementEvent`:
the annotation is `dict[str, Any] | None`, so pydantic accepts `None` or a
mapping and rejects any other value. -/
def validatePayloadField (payload : Option Val) :
    Except PyExn (Option Val) :=
  match payload with
  | none => .ok none
  | some (.vdict entries) => .ok (some (.vdict entries))
  | some _ => .error (.validationError "payload: Input should be a valid dictionary")

/-- A successfully validated `DispatchEntry`. -/
structure DispatchEntry where
  ticket_uuid : String
  run_uuid : String
  kind : List Char
  summary : List Char
  message_uuid : Option String
  payload : Option Val
  source : List Char
  schema_version : Int
  client_ts : Option String
deriving Repr

/-- `DispatchEntry(...)` construction: pydantic rejects a `None` required
string field and applies each field's constraints and validators; on
success the model instance carries the validated fields. -/
def buildDispatchEntry (ticket_uuid run_uuid : Option String)
    (kind summary : List Char) (message_uuid : Option String)
    (payload : Option Val) (source : List Char) (schema_version : Int)
    (client_ts : Option String) : Except PyExn DispatchEntry :=
  match ticket_uuid with
  | none => .error (.validationError "ticket_uuid: Input should be a valid string")
  | some t =>
    match run_uuid with
    | none => .error (.validationError "run_uuid: Input should be a valid string")
    | some r =>
      match validateKind kind with
      | .error err => .error err
      | .ok k =>
        match validateSummary summary with
        | .error err => .error err
        | .ok s =>
          match validatePayloadField payload with
          | .error err => .error err
          | .ok pl =>
            match validateSource source with
            | .error err => .error err
            | .ok src =>
              .ok { ticket_uuid := t, run_uuid := r, kind := k,
                    summary := s, message_uuid := message_uuid,
                    payload := pl, source := src,
                    schema_version := schema_version,
                    client_ts := client_ts }

/-! ## Summary normalization inside `DispatchClient.dispatch` -/

/-- `if len(summary) > SUMMARY_MAX_LENGTH:
summary = summary[: SUMMARY_MAX_LENGTH - 3] + "..."`. -/
def truncateSummary (summary : List Char) : List Char :=
  if summary.length > SUMMARY_MAX_LENGTH then
    summary.take (SUMMARY_MAX_LENGTH - 3) ++ ['.', '.', '.']
  else summary

/-- `summary.replace("\n", " ")` (the pattern is a single character, so the
replacement is character-wise). -/
def replaceNewlineWithSpace (s : List Char) : List Char :=
  s.map (fun c => if c = '\n' then ' ' else c)

/-! ## Transport collaborator and Python helpers -/

/-- The observable outcome of one HTTP round trip performed by the
transport collaborator (`httpx`): either the request raised (connection
failure, timeout, ...), or a response arrived with a status code and a
body whose `.json()` parse either succeeds or raises. -/
inductive HttpOutcome where
  | exn (e : PyExn)
  | resp (status : Int) (body : Except PyExn Val)

/-- `response.status_code >= 200 and response.status_code < 300`. -/
def is2xx (status : Int) : Bool := 200 ≤ status && status < 300

/-- The `try/except` around each HTTP call: 2xx is success, any other
status or any raised exception is failure. -/
def requestSucceeded (outcome : HttpOutcome) : Bool :=
  match outcome with
  | .exn _ => false
  | .resp status _ => is2xx status

/-- Python truthiness of an optional string (`None` and `""` are falsy),
as tested by `all([...])` in the constructors. -/
def pyTruthy (o : Option String) : Bool :=
  match o with
  | none => false
  | some s => !(s == "")

/-- `a or b` for an optional string `a` and a string `b`. -/
def pyOrStr (a : Option String) (b : String) : String :=
  match a with
  | some s => if s == "" then b else s
  | none => b

/-- `a or b` for two optional strings. -/
def pyOrOpt (a b : Option String) : Option String :=
  match a with
  | some s => if s == "" then b else some s
  | none => b

/-- `d[k] = v` on a dict literal being built: replaces in place if the key
exists, appends otherwise. -/
def pyDictInsert : List (PyKey × Val) → PyKey → Val → List (PyKey × Val)
  | [], k, v => [(k, v)]
  | (k', v') :: rest, k, v =>
      if k' == k then (k', v) :: rest else (k', v') :: pyDictInsert rest k v

/-- `d.get(key)` for a string key. -/
def pyDictFind (entries : List (PyKey × Val)) (key : String) : Option Val :=
  match entries with
  | [] => none
  | (k, v) :: rest => if k == PyKey.kstr key then some v else pyDictFind rest key

/-! ## Python `int(...)` on a string -/

/-- Python whitespace stripped by `int(str)`. -/
def isPySpace (c : Char) : Bool :=
  c = ' ' || c = '\t' || c = '\n' || c = '\r' || c.toNat = 11 || c.toNat = 12

/-- Numeric value of a decimal digit character. -/
def digitVal (c : Char) : Nat := c.toNat - 48

/-- Digits after the first, allowing a single `_` between digits
(Python's numeric-literal underscore rule). -/
def parseDigitsGo (acc : Nat) : List Char → Option Nat
  | [] => some acc
  | '_' :: c :: rest =>
      if c.isDigit then parseDigitsGo (acc * 10 + digitVal c) rest else none
  | c :: rest =>
      if c.isDigit then parseDigitsGo (acc * 10 + digitVal c) rest else none

/-- An unsigned decimal literal: at least one digit, single underscores
only between digits. -/
def parseUDigits : List Char → Option Nat
  | [] => none
  | c :: rest => if c.isDigit then parseDigitsGo (digitVal c) rest else none

/-- `int(s)`: strip whitespace, optional sign, decimal digits; anything
else is a `ValueError`. -/
def pyIntParse (s : String) : Option Int :=
  let cs := ((s.data.dropWhile isPySpace).reverse.dropWhile isPySpace).reverse
  match cs with
  | [] => none
  | '+' :: rest => (parseUDigits rest).map (fun n => (n : Int))
  | '-' :: rest => (parseUDigits rest).map (fun n => -(n : Int))
  | _ => (parseUDigits cs).map (fun n => (n : Int))

/-- `int(s)` as a fallible computation: a malformed literal raises
`ValueError`. -/
def pyInt (s : String) : Except PyExn Int :=
  match pyIntParse s with
  | some n => .ok n
  | none => .error (.valueError "invalid literal for int with base 10")

/-! ## `dispatch/client.py`: `DispatchClient` -/

def DEFAULT_TIMEOUT_MS : Int := 1500
def DEFAULT_MAX_BYTES : Int := (PAYLOAD_MAX_SIZE_BYTES : Int)

/-- The state of a `DispatchClient` after `__init__`. -/
structure DispatchClient where
  dispatch_url : Option String
  dispatch_token : Option String
  ticket_uuid : Option String
  run_uuid : Option String
  message_uuid : Option String
  timeout_ms : Int
  max_bytes : Int
  debug : Bool
  enabled : Bool

/-- `DispatchClient.__init__`: stores the configuration and computes
`_enabled = all([dispatch_url, dispatch_token, ticket_uuid, run_uuid])`
once. -/
def mkDispatchClient (dispatch_url dispatch_token ticket_uuid run_uuid
    message_uuid : Option String) (timeout_ms max_bytes : Int)
    (debug : Bool) : DispatchClient :=
  { dispatch_url := dispatch_url, dispatch_token := dispatch_token,
    ticket_uuid := ticket_uuid, run_uuid := run_uuid,
    message_uuid := message_uuid, timeout_ms := timeout_ms,
    max_bytes := max_bytes, debug := debug,
    enabled := pyTruthy dispatch_url && pyTruthy dispatch_token &&
      pyTruthy ticket_uuid && pyTruthy run_uuid }

/-- The environment variables read by `DispatchClient.from_env`. -/
structure DispatchEnv where
  FULCRUM_DISPATCH_URL : Option String
  FULCRUM_DISPATCH_TOKEN : Option String
  FULCRUM_TICKET_UUID : Option String
  FULCRUM_RUN_UUID : Option String
  FULCRUM_MESSAGE_UUID : Option String
  FULCRUM_DISPATCH_DEBUG : Option String
  FULCRUM_DISPATCH_TIMEOUT_MS : Option String
  FULCRUM_DISPATCH_MAX_BYTES : Option String

/-- `DispatchClient.from_env`: missing identifiers produce a no-op client,
but a malformed numeric variable makes `int(...)` raise, and nothing
catches it: the error propagates out of construction.
`str(DEFAULT_TIMEOUT_MS) = "1500"` and `str(DEFAULT_MAX_BYTES) = "65536"`
are the defaults handed to `int`. -/
def dispatchFromEnv (env : DispatchEnv) : Except PyExn DispatchClient := do
  let debug := (env.FULCRUM_DISPATCH_DEBUG.getD "") == "1"
  let timeout_ms ← pyInt (env.FULCRUM_DISPATCH_TIMEOUT_MS.getD "1500")
  let max_bytes ← pyInt (env.FULCRUM_DISPATCH_MAX_BYTES.getD "65536")
  Except.ok (mkDispatchClient env.FULCRUM_DISPATCH_URL
    env.FULCRUM_DISPATCH_TOKEN env.FULCRUM_TICKET_UUID
    env.FULCRUM_RUN_UUID env.FULCRUM_MESSAGE_UUID timeout_ms max_bytes debug)

/-- `DispatchClient.dispatch`.  `now_iso` stands for
`datetime.now(UTC).isoformat()`; `outcome` is the transport behavior of
the one possible POST.  Returns the boolean result paired with the number
of HTTP requests attempted. -/
def DispatchClient.dispatch (c : DispatchClient) (kind summary : List Char)
    (payload : Option Val) (source : List Char) (client_ts : Option String)
    (skip_redaction : Bool) (now_iso : String) (outcome : HttpOutcome) :
    Bool × Nat :=
  if !c.enabled then (false, 0)
  else
    let summary1 := truncateSummary summary
    let processed_payload : Option Val :=
      payload.map (fun p =>
        truncate_payload c.max_bytes (redact_payload p skip_redaction))
    match buildDispatchEntry c.ticket_uuid c.run_uuid kind
        (replaceNewlineWithSpace summary1) c.message_uuid processed_payload
        source SCHEMA_VERSION (some (pyOrStr client_ts now_iso)) with
    | .error _ => (false, 0)
    | .ok _entry => (requestSucceeded outcome, 1)

/-- `DispatchClient.dispatch_text`. -/
def DispatchClient.dispatch_text (c : DispatchClient) (summary : List Char)
    (text : Option String) (now_iso : String) (outcome : HttpOutcome) :
    Bool × Nat :=
  let payload := match text with
    | some t => some (Val.vdict [(.kstr "text", .vstr t)])
    | none => none
  c.dispatch "text".data summary payload "sdk".data none false now_iso outcome

/-- `DispatchClient.dispatch_json`. -/
def DispatchClient.dispatch_json (c : DispatchClient) (summary : List Char)
    (payload : Val) (now_iso : String) (outcome : HttpOutcome) : Bool × Nat :=
  c.dispatch "json".data summary (some payload) "sdk".data none false
    now_iso outcome

/-- `DispatchClient.dispatch_api_call`; `details` are the extra keyword
arguments merged into the payload dict literal. -/
def DispatchClient.dispatch_api_call (c : DispatchClient)
    (summary : List Char) (service operation : String)
    (details : List (String × Val)) (now_iso : String)
    (outcome : HttpOutcome) : Bool × Nat :=
  let payload := Val.vdict (details.foldl
    (fun acc kv => pyDictInsert acc (.kstr kv.1) kv.2)
    [(.kstr "service", .vstr service), (.kstr "operation", .vstr operation)])
  c.dispatch "api_call".data summary (some payload) "sdk".data none false
    now_iso outcome

/-- `DispatchClient.dispatch_external_ref`. -/
def DispatchClient.dispatch_external_ref (c : DispatchClient)
    (summary : List Char) (provider ref_type ref_id : String)
    (url : Option String) (now_iso : String) (outcome : HttpOutcome) :
    Bool × Nat :=
  let base := [(PyKey.kstr "provider", Val.vstr provider),
    (PyKey.kstr "ref_type", Val.vstr ref_type),
    (PyKey.kstr "ref_id", Val.vstr ref_id)]
  let payload := Val.vdict (match url with
    | some u => pyDictInsert base (.kstr "url") (.vstr u)
    | none => base)
  c.dispatch "external_ref".data summary (some payload) "sdk".data none
    false now_iso outcome

/-- `DispatchClient.dispatch_db`. -/
def DispatchClient.dispatch_db (c : DispatchClient) (summary : List Char)
    (operation table : String) (rows : Option Int) (query : Option String)
    (now_iso : String) (outcome : HttpOutcome) : Bool × Nat :=
  let p1 := [(PyKey.kstr "operation", Val.vstr operation),
    (PyKey.kstr "table", Val.vstr table)]
  let p2 := match rows with
    | some n => pyDictInsert p1 (.kstr "count") (.vint n)
    | none => p1
  let p3 := match query with
    | some q => pyDictInsert p2 (.kstr "query") (.vstr q)
    | none => p2
  c.dispatch "db".data summary (some (Val.vdict p3)) "sdk".data none false
    now_iso outcome

/-- `DispatchClient.dispatch_model`; `model_name` and `data` stand for
`model.__class__.__name__` and `model.model_dump(mode="json")`. -/
def DispatchClient.dispatch_model (c : DispatchClient) (summary : List Char)
    (model_name : String) (data : Val) (input_summary : Option String)
    (now_iso : String) (outcome : HttpOutcome) : Bool × Nat :=
  let p1 := [(PyKey.kstr "model_name", Val.vstr model_name),
    (PyKey.kstr "data", data)]
  let p2 := match input_summary with
    | some i => pyDictInsert p1 (.kstr "input_summary") (.vstr i)
    | none => p1
  c.dispatch "model".data summary (some (Val.vdict p2)) "sdk".data none
    false now_iso outcome

/-! ## `improvements/models.py` and `improvements/client.py` -/

/-- The `ImprovementStatus` literal. -/
def IMPROVEMENT_STATUSES : List String :=
  ["open", "in_progress", "resolved", "dismissed"]

/-- An `Improvement` record parsed from an API response. -/
structure Improvement where
  uuid : String
  project_uuid : String
  ticket_uuid : Option String
  run_uuid : Option String
  title : String
  description : Option String
  status : String
  dedupe_key : Option String
  created_at : Option String
  updated_at : Option String
deriving Repr

/-- A required pydantic `str` field drawn from a response dict. -/
def getReqStr (entries : List (PyKey × Val)) (field : String) :
    Except PyExn String :=
  match pyDictFind entries field with
  | some (.vstr s) => .ok s
  | some _ => .error (.validationError (field ++ ": Input should be a valid string"))
  | none => .error (.validationError (field ++ ": Field required"))

/-- An optional pydantic `str | None` field drawn from a response dict. -/
def getOptStr (entries : List (PyKey × Val)) (field : String) :
    Except PyExn (Option String) :=
  match pyDictFind entries field with
  | some (.vstr s) => .ok (some s)
  | some .vnull => .ok none
  | some _ => .error (.validationError (field ++ ": Input should be a valid string"))
  | none => .ok none

/-- The `status` field: one of the four literals; the default `"open"`
applies only when the key is absent — the field is not optional, so an
explicit `null` (like any other non-literal value) is rejected. -/
def getStatus (entries : List (PyKey × Val)) : Except PyExn String :=
  match pyDictFind entries "status" with
  | some (.vstr s) =>
      if IMPROVEMENT_STATUSES.contains s then .ok s
      else .error (.validationError "status: invalid literal")
  | some _ => .error (.validationError "status: invalid literal")
  | none => .ok "open"

/-- `Improvement(**item)`: pydantic validation of one response item
(a non-mapping item makes the `**` splat raise). -/
def parseImprovement (item : Val) : Except PyExn Improvement :=
  match item with
  | .vdict entries => do
      let uuid ← getReqStr entries "uuid"
      let project_uuid ← getReqStr entries "project_uuid"
      let ticket_uuid ← getOptStr entries "ticket_uuid"
      let run_uuid ← getOptStr entries "run_uuid"
      let title ← getReqStr entries "title"
      let description ← getOptStr entries "description"
      let status ← getStatus entries
      let dedupe_key ← getOptStr entries "dedupe_key"
      let created_at ← getOptStr entries "created_at"
      let updated_at ← getOptStr entries "updated_at"
      Except.ok
        { uuid := uuid, project_uuid := project_uuid,
          ticket_uuid := ticket_uuid, run_uuid := run_uuid, title := title,
          description := description, status := status,
          dedupe_key := dedupe_key, created_at := created_at,
          updated_at := updated_at }
  | _ => .error (.valueError "argument after ** must be a mapping")

/-- `[Improvement(**item) for item in improvements_data]`: items are
validated in order; the first failure raises. -/
def parseImprovements : List Val → Except PyExn (List Improvement)
  | [] => .ok []
  | item :: rest => do
      let i ← parseImprovement item
      let is ← parseImprovements rest
      Except.ok (i :: is)

/-- The state of an `ImprovementsClient` after `__init__`. -/
structure ImprovementsClient where
  improvements_url : Option String
  run_token : Option String
  project_uuid : Option String
  ticket_uuid : Option String
  run_uuid : Option String
  timeout_ms : Int
  max_bytes : Int
  debug : Bool
  enabled : Bool

/-- `ImprovementsClient.__init__`: stores the configuration and computes
`_enabled = all([improvements_url, run_token, run_uuid])` once. -/
def mkImprovementsClient (improvements_url run_token project_uuid
    ticket_uuid run_uuid : Option String) (timeout_ms max_bytes : Int)
    (debug : Bool) : ImprovementsClient :=
  { improvements_url := improvements_url, run_token := run_token,
    project_uuid := project_uuid, ticket_uuid := ticket_uuid,
    run_uuid := run_uuid, timeout_ms := timeout_ms,
    max_bytes := max_bytes, debug := debug,
    enabled := pyTruthy improvements_url && pyTruthy run_token &&
      pyTruthy run_uuid }

/-- The environment variables read by `ImprovementsClient.from_env`. -/
structure ImprovementsEnv where
  FULCRUM_IMPROVEMENTS_URL : Option String
  FULCRUM_RUN_TOKEN : Option String
  FULCRUM_DISPATCH_TOKEN : Option String
  FULCRUM_PROJECT_UUID : Option String
  FULCRUM_TICKET_UUID : Option String
  FULCRUM_RUN_UUID : Option String
  FULCRUM_IMPROVEMENTS_DEBUG : Option String
  FULCRUM_IMPROVEMENTS_TIMEOUT_MS : Option String
  FULCRUM_IMPROVEMENTS_MAX_BYTES : Option String

/-- `ImprovementsClient.from_env`: prefers `FULCRUM_RUN_TOKEN` over the
deprecated `FULCRUM_DISPATCH_TOKEN`; a malformed numeric variable makes
`int(...)` raise and the error propagates out of construction. -/
def improvementsFromEnv (env : ImprovementsEnv) :
    Except PyExn ImprovementsClient := do
  let run_token := pyOrOpt env.FULCRUM_RUN_TOKEN env.FULCRUM_DISPATCH_TOKEN
  let debug := (env.FULCRUM_IMPROVEMENTS_DEBUG.getD "") == "1"
  let timeout_ms ← pyInt (env.FULCRUM_IMPROVEMENTS_TIMEOUT_MS.getD "1500")
  let max_bytes ← pyInt (env.FULCRUM_IMPROVEMENTS_MAX_BYTES.getD "65536")
  Except.ok (mkImprovementsClient env.FULCRUM_IMPROVEMENTS_URL run_token
    env.FULCRUM_PROJECT_UUID env.FULCRUM_TICKET_UUID env.FULCRUM_RUN_UUID
    timeout_ms max_bytes debug)

/-- `ImprovementsClient.list_improvements`: GET, then shape-tolerant
response handling; every failure yields the empty list. -/
def ImprovementsClient.list_improvements (c : ImprovementsClient)
    (project_uuid : Option String) (outcome : HttpOutcome) :
    List Improvement × Nat :=
  if !c.enabled then ([], 0)
  else
    match outcome with
    | .exn _ => ([], 1)
    | .resp status body =>
        if is2xx status then
          match body with
          | .error _ => ([], 1)
          | .ok data =>
              match data with
              | .vlist items =>
                  (match parseImprovements items with
                   | .ok l => (l, 1)
                   | .error _ => ([], 1))
              | .vdict entries =>
                  (match (pyDictFind entries "improvements").getD
                      (Val.vdict entries) with
                   | .vlist items =>
                       (match parseImprovements items with
                        | .ok l => (l, 1)
                        | .error _ => ([], 1))
                   | _ => ([], 1))
              | _ => ([], 1)
        else ([], 1)

/-- `ImprovementCreate(...)` validation: `title` and `dedupe_key` capped at
256 characters, `status` one of the four literals. -/
def validateImprovementCreate (title : List Char)
    (dedupe_key : Option (List Char)) (status : String) :
    Except PyExn Unit :=
  let dedupe_too_long : Bool := match dedupe_key with
    | some d => d.length > 256
    | none => false
  if title.length > 256 then .error (.validationError "title too long")
  else if dedupe_too_long then .error (.validationError "dedupe_key too long")
  else if !(IMPROVEMENT_STATUSES.contains status) then
    .error (.validationError "status: invalid literal")
  else .ok ()

/-- `ImprovementsClient.create_improvement`. -/
def ImprovementsClient.create_improvement (c : ImprovementsClient)
    (title : List Char) (description dedupe_key : Option (List Char))
    (status : String) (outcome : HttpOutcome) : Bool × Nat :=
  if !c.enabled then (false, 0)
  else
    match validateImprovementCreate title dedupe_key status with
    | .error _ => (false, 0)
    | .ok _ => (requestSucceeded outcome, 1)

/-- `v is not None` for a payload value. -/
def isNone (v : Val) : Bool :=
  match v with
  | .vnull => true
  | _ => false

/-- The names accepted by `update_improvement`'s field filter. -/
def VALID_UPDATE_FIELDS : List String := ["title", "description", "status"]

/-- One keyword argument passes the filter
`k in ("title", "description", "status") and v is not None`. -/
def isValidUpdateField (kv : String × Val) : Bool :=
  VALID_UPDATE_FIELDS.contains kv.1 && !(isNone kv.2)

/-- First value bound to `name` among the keyword arguments (Python keyword
arguments are unique by name). -/
def lookupField (fields : List (String × Val)) (name : String) :
    Option Val :=
  match fields with
  | [] => none
  | (k, v) :: rest => if k == name then some v else lookupField rest name

/-- `ImprovementUpdate(**valid_fields)` validation: `title` a string of at
most 256 characters, `description` a string, `status` one of the four
literals; absent fields stay `None`. -/
def validateImprovementUpdate (valid_fields : List (String × Val)) :
    Except PyExn Unit := do
  (match lookupField valid_fields "title" with
   | none => Except.ok ()
   | some (.vstr t) =>
       if t.length > 256 then Except.error (.validationError "title too long")
       else Except.ok ()
   | some _ => Except.error (.validationError "title: Input should be a valid string"))
  (match lookupField valid_fields "description" with
   | none => Except.ok ()
   | some (.vstr _) => Except.ok ()
   | some _ => Except.error (.validationError "description: Input should be a valid string"))
  (match lookupField valid_fields "status" with
   | none => Except.ok ()
   | some (.vstr s) =>
       if IMPROVEMENT_STATUSES.contains s then Except.ok ()
       else Except.error (.validationError "status: invalid literal")
   | some _ => Except.error (.validationError "status: invalid literal"))

/-- `ImprovementsClient.update_improvement`: filter the keyword arguments,
bail out before any network access when nothing valid remains, otherwise
validate and PATCH. -/
def ImprovementsClient.update_improvement (c : ImprovementsClient)
    (uuid : String) (fields : List (String × Val)) (outcome : HttpOutcome) :
    Bool × Nat :=
  if !c.enabled then (false, 0)
  else
    let valid_fields := fields.filter isValidUpdateField
    if valid_fields.isEmpty then (false, 0)
    else
      match validateImprovementUpdate valid_fields with
      | .error _ => (false, 0)
      | .ok _ => (requestSucceeded outcome, 1)

/-- `ImprovementsClient.delete_improvement`. -/
def ImprovementsClient.delete_improvement (c : ImprovementsClient)
    (uuid : String) (outcome : HttpOutcome) : Bool × Nat :=
  if !c.enabled then (false, 0)
  else (requestSucceeded outcome, 1)

/-- `ImprovementEvent(...)` validation: `action` capped at 64 characters,
and the (already redacted and bounded) `payload` must be `None` or a
mapping (`dict[str, Any] | None`). -/
def validateImprovementEvent (action : List Char) (payload : Option Val) :
    Except PyExn Unit :=
  if action.length > 64 then .error (.validationError "action too long")
  else
    match validatePayloadField payload with
    | .error err => .error err
    | .ok _ => .ok ()

/-- `ImprovementsClient.emit_improvement_event`: redact and bound the
optional payload, validate the event model on the processed payload,
POST. -/
def ImprovementsClient.emit_improvement_event (c : ImprovementsClient)
    (improvement_uuid : String) (action : List Char) (payload : Option Val)
    (outcome : HttpOutcome) : Bool × Nat :=
  if !c.enabled then (false, 0)
  else
    let processed : Option Val :=
      payload.map (fun p => truncate_payload c.max_bytes (redact_payload p false))
    match validateImprovementEvent action processed with
    | .error _ => (false, 0)
    | .ok _ => (requestSucceeded outcome, 1)

/-! ## Claim C3: the size bounder -/

/-- **C3.** If the UTF-8 byte length of the payload's JSON serialization is
at most `max_bytes`, `_truncate_payload` returns the payload unchanged;
otherwise it returns exactly the flat truncation notice
`{"_truncated": true, "_original_size": N, "_max_size": max_bytes}` with `N`
the measured byte length; in every case the result is either the whole
payload or the notice (no partial inclusion of the original content — the
check is applied once to the whole payload; in `DispatchClient.dispatch`
and `emit_improvement_event` it is applied to `redact_payload`'s output,
after redaction, never per-subtree). -/
theorem truncate_payload_spec (P : Val) (maxBytes : Int) :
    ((utf8Len (pyJsonDumps P) : Int) ≤ maxBytes →
      truncate_payload maxBytes P = P) ∧
    ((utf8Len (pyJsonDumps P) : Int) > maxBytes →
      truncate_payload maxBytes P =
        .vdict [(.kstr "_truncated", .vbool true),
                (.kstr "_original_size", .vint (utf8Len (pyJsonDumps P))),
                (.kstr "_max_size", .vint maxBytes)]) ∧
    (truncate_payload maxBytes P = P ∨
      truncate_payload maxBytes P =
        .vdict [(.kstr "_truncated", .vbool true),
                (.kstr "_original_size", .vint (utf8Len (pyJsonDumps P))),
                (.kstr "_max_size", .vint maxBytes)]) := by
  by_cases h : (utf8Len (pyJsonDumps P) : Int) ≤ maxBytes
  · refine ⟨fun _ => ?_, fun h2 => absurd h (not_le.mpr h2), Or.inl ?_⟩ <;>
      simp [truncate_payload, h]
  · refine ⟨fun h2 => absurd h2 h, fun _ => ?_, Or.inr ?_⟩ <;>
      simp [truncate_payload, h]

/-- Witness for C3 at concrete inputs: `json.dumps({}) = "\x7b\x7d"` has two
bytes, so a 2-byte budget passes the payload through and a 1-byte budget
produces the notice. -/
theorem truncate_payload_spec_witness :
    truncate_payload 2 (Val.vdict []) = Val.vdict [] ∧
    truncate_payload 1 (Val.vdict []) =
      Val.vdict [(.kstr "_truncated", .vbool true),
                 (.kstr "_original_size", .vint 2),
                 (.kstr "_max_size", .vint 1)] := by
  constructor
  · exact (truncate_payload_spec (Val.vdict []) 2).1 (by decide)
  · have h := (truncate_payload_spec (Val.vdict []) 1).2.1 (by decide)
    rw [show utf8Len (pyJsonDumps (Val.vdict [])) = 2 from rfl] at h
    exact h

/-! ## Claim C7: summary normalization in `DispatchClient.dispatch` -/

/-- No character of the newline-folded string is a newline. -/
theorem replaceNewlineWithSpace_no_newline (s : List Char) :
    '\n' ∉ replaceNewlineWithSpace s := by
  intro hmem
  rw [replaceNewlineWithSpace, List.mem_map] at hmem
  obtain ⟨c, _, heq⟩ := hmem
  by_cases h : c = '\n'
  · rw [if_pos h] at heq
    exact absurd heq (by decide)
  · rw [if_neg h] at heq
    exact h heq

/-- **C7.** In `dispatch`, a summary longer than 512 characters is replaced
by its first 509 characters plus `"..."`, giving exactly 512 characters;
every newline is then folded to a space before `DispatchEntry` validation,
so the summary the entry validates always passes (in particular validation
never fails on newline-free input); a 600-character newline-free summary
yields exactly 512 characters ending in `"..."`. -/
theorem dispatch_summary_normalization (summary : List Char) :
    (summary.length > 512 →
      truncateSummary summary = summary.take 509 ++ ['.', '.', '.'] ∧
      (truncateSummary summary).length = 512) ∧
    (replaceNewlineWithSpace (truncateSummary summary)).contains '\n' = false ∧
    (validateSummary (replaceNewlineWithSpace (truncateSummary summary))).isOk
      = true ∧
    (summary.length = 600 → '\n' ∉ summary →
      (replaceNewlineWithSpace (truncateSummary summary)).length = 512 ∧
      (replaceNewlineWithSpace (truncateSummary summary)).drop 509
        = ['.', '.', '.']) := by
  have hnn := replaceNewlineWithSpace_no_newline (truncateSummary summary)
  have hcontains :
      (replaceNewlineWithSpace (truncateSummary summary)).contains '\n'
        = false := by
    rw [← Bool.not_eq_true]
    intro h
    exact hnn (by simpa using h)
  have hts : summary.length > 512 →
      truncateSummary summary = summary.take 509 ++ ['.', '.', '.'] := by
    intro h
    rw [truncateSummary, if_pos (by simpa [SUMMARY_MAX_LENGTH] using h)]
    norm_num [SUMMARY_MAX_LENGTH]
  have hlen : (truncateSummary summary).length ≤ 512 := by
    by_cases h : summary.length > 512
    · rw [hts h]
      simp only [List.length_append, List.length_take, List.length_cons,
        List.length_nil]
      omega
    · rw [truncateSummary, if_neg (by simpa [SUMMARY_MAX_LENGTH] using h)]
      omega
  have hplen : (replaceNewlineWithSpace (truncateSummary summary)).length
      = (truncateSummary summary).length := by
    rw [replaceNewlineWithSpace, List.length_map]
  refine ⟨fun h => ?_, hcontains, ?_, fun h600 hnl => ?_⟩
  · refine ⟨hts h, ?_⟩
    rw [hts h]
    simp only [List.length_append, List.length_take, List.length_cons,
      List.length_nil]
    omega
  · have hA : ¬((replaceNewlineWithSpace (truncateSummary summary)).length
        > SUMMARY_MAX_LENGTH) := by
      simp only [SUMMARY_MAX_LENGTH]
      omega
    have hB : ¬((replaceNewlineWithSpace (truncateSummary summary)).contains
        '\n' = true) := by
      rw [hcontains]
      exact Bool.false_ne_true
    rw [validateSummary, if_neg hA, if_neg hB]
    rfl
  · have htr := hts (by omega)
    have htake : (summary.take 509).length = 509 := by
      rw [List.length_take, h600]
      norm_num
    constructor
    · rw [hplen, htr, List.length_append, htake]
      rfl
    · have hmaplen :
          ((summary.take 509).map
            (fun c => if c = '\n' then ' ' else c)).length = 509 := by
        rw [List.length_map, htake]
      rw [replaceNewlineWithSpace, htr, List.map_append,
        List.drop_left' hmaplen]
      decide

/-- Witness for C7 at a concrete 600-character newline-free summary. -/
theorem dispatch_summary_normalization_witness :
    (replaceNewlineWithSpace (truncateSummary (List.replicate 600 'a'))).length
      = 512 ∧
    (replaceNewlineWithSpace (truncateSummary (List.replicate 600 'a'))).drop
      509 = ['.', '.', '.'] := by
  refine (dispatch_summary_normalization (List.replicate 600 'a')).2.2.2 ?_ ?_
  · rw [List.length_replicate]
  · intro hmem
    rw [List.mem_replicate] at hmem
    exact absurd hmem.2 (by decide)

/-! ## Claim C8: `DispatchEntry` validation of `kind` and the entry
invariant -/

/-- Inversion for a successful `kind` validation. -/
theorem validateKind_ok {kind k : List Char}
    (h : validateKind kind = .ok k) :
    k = kind ∧ kind ≠ [] ∧ kind.length ≤ KIND_MAX_LENGTH := by
  rw [validateKind] at h
  by_cases h1 : kind.length > KIND_MAX_LENGTH
  · rw [if_pos h1] at h
    exact absurd h (by simp)
  · rw [if_neg h1] at h
    by_cases h2 : kind = []
    · rw [if_pos h2] at h
      exact absurd h (by simp)
    · rw [if_neg h2] at h
      exact ⟨(Except.ok.inj h).symm, h2, by omega⟩

/-- Inversion for a successful `summary` validation. -/
theorem validateSummary_ok {summary s : List Char}
    (h : validateSummary summary = .ok s) :
    s = summary ∧ summary.contains '\n' = false ∧
      summary.length ≤ SUMMARY_MAX_LENGTH := by
  rw [validateSummary] at h
  by_cases h1 : summary.length > SUMMARY_MAX_LENGTH
  · rw [if_pos h1] at h
    exact absurd h (by simp)
  · rw [if_neg h1] at h
    by_cases h2 : summary.contains '\n' = true
    · rw [if_pos h2] at h
      exact absurd h (by simp)
    · rw [if_neg h2] at h
      exact ⟨(Except.ok.inj h).symm, Bool.not_eq_true _ ▸ h2, by omega⟩

/-- Inversion for a successful `DispatchEntry` construction: the validated
fields are the given ones and passed their validators. -/
theorem buildDispatchEntry_ok {t r : Option String}
    {kind summary : List Char} {m : Option String} {p : Option Val}
    {src : List Char} {sv : Int} {cts : Option String} {e : DispatchEntry}
    (h : buildDispatchEntry t r kind summary m p src sv cts = .ok e) :
    e.kind = kind ∧ e.summary = summary ∧
      validateKind kind = .ok kind ∧ validateSummary summary = .ok summary := by
  rw [buildDispatchEntry.eq_def] at h
  cases t with
  | none => exact absurd h (by simp)
  | some tv =>
    cases r with
    | none => exact absurd h (by simp)
    | some rv =>
      cases hk : validateKind kind with
      | error ek => rw [hk] at h; exact absurd h (by simp)
      | ok kv =>
        rw [hk] at h
        cases hs : validateSummary summary with
        | error es => rw [hs] at h; exact absurd h (by simp)
        | ok sv2 =>
          rw [hs] at h
          cases hp : validatePayloadField p with
          | error ep => rw [hp] at h; exact absurd h (by simp)
          | ok pl =>
            rw [hp] at h
            cases hsrc : validateSource src with
            | error esrc => rw [hsrc] at h; exact absurd h (by simp)
            | ok srcv =>
              rw [hsrc] at h
              have he := Except.ok.inj h
              obtain ⟨hkv, -, -⟩ := validateKind_ok hk
              obtain ⟨hsv2, -, -⟩ := validateSummary_ok hs
              exact ⟨by rw [← he]; exact hkv, by rw [← he]; exact hsv2,
                congrArg Except.ok hkv, congrArg Except.ok hsv2⟩


/-- **C8.** `DispatchEntry` construction rejects `kind` iff it is empty or
longer than 64 characters; consequently every successfully constructed
entry has a non-empty `kind` and a newline-free `summary`. -/
theorem dispatchEntry_kind_validation :
    (∀ kind : List Char,
      (validateKind kind).isOk = false ↔ kind = [] ∨ kind.length > 64) ∧
    (∀ (t r : Option String) (kind summary : List Char)
        (m : Option String) (p : Option Val) (src : List Char) (sv : Int)
        (cts : Option String) (e : DispatchEntry),
      buildDispatchEntry t r kind summary m p src sv cts = .ok e →
      e.kind ≠ [] ∧ e.summary.contains '\n' = false) := by
  constructor
  · intro kind
    simp only [validateKind, KIND_MAX_LENGTH]
    by_cases h1 : kind.length > 64
    · rw [if_pos h1]
      simp [h1, Except.isOk, Except.toBool]
    · rw [if_neg h1]
      by_cases h2 : kind = []
      · rw [if_pos h2]
        simp [h2, Except.isOk, Except.toBool]
      · rw [if_neg h2]
        simp [h1, h2, Except.isOk, Except.toBool]
  · intro t r kind summary m p src sv cts e h
    obtain ⟨hek, hes, hk, hs⟩ := buildDispatchEntry_ok h
    obtain ⟨-, hkne, -⟩ := validateKind_ok hk
    obtain ⟨-, hsnl, -⟩ := validateSummary_ok hs
    exact ⟨hek ▸ hkne, hes ▸ hsnl⟩

/-- Witness for C8: the empty `kind` is rejected, a 65-character `kind` is
rejected, a valid entry construction succeeds and satisfies the
invariant. -/
theorem dispatchEntry_kind_validation_witness :
    ((validateKind []).isOk = false ↔ ([] : List Char) = [] ∨
      ([] : List Char).length > 64) ∧
    (({ ticket_uuid := "t", run_uuid := "r", kind := ['a'],
        summary := ['s'], message_uuid := none, payload := none,
        source := "sdk".data, schema_version := 1,
        client_ts := none } : DispatchEntry).kind ≠ [] ∧
      ({ ticket_uuid := "t", run_uuid := "r", kind := ['a'],
         summary := ['s'], message_uuid := none, payload := none,
         source := "sdk".data, schema_version := 1,
         client_ts := none } : DispatchEntry).summary.contains '\n'
        = false) := by
  constructor
  · exact dispatchEntry_kind_validation.1 []
  · exact dispatchEntry_kind_validation.2 (some "t") (some "r") ['a'] ['s']
      none none "sdk".data 1 none _ (by rfl)

/-! ## Claim C5: `enabled` and the no-op client -/

/-- **C5.** `enabled` is computed once at construction and is `true` iff
every required configuration field is a non-`None`, non-empty string
(URL, token, ticket and run for the dispatch client; URL, token and run
for the improvements client); every public operation on a non-enabled
client returns its no-op result — `false` for writes, `[]` for the list
operation — with zero HTTP requests attempted. -/
theorem noop_client_spec :
    (∀ (url tok tick run msg : Option String) (tms mb : Int) (dbg : Bool),
      (mkDispatchClient url tok tick run msg tms mb dbg).enabled = true ↔
        (pyTruthy url = true ∧ pyTruthy tok = true ∧
         pyTruthy tick = true ∧ pyTruthy run = true)) ∧
    (∀ (url tok proj tick run : Option String) (tms mb : Int) (dbg : Bool),
      (mkImprovementsClient url tok proj tick run tms mb dbg).enabled = true
        ↔ (pyTruthy url = true ∧ pyTruthy tok = true ∧
           pyTruthy run = true)) ∧
    (∀ (c : DispatchClient) k s p src cts skip now out,
      c.enabled = false →
      c.dispatch k s p src cts skip now out = (false, 0)) ∧
    (∀ (c : DispatchClient) s t now out, c.enabled = false →
      c.dispatch_text s t now out = (false, 0)) ∧
    (∀ (c : DispatchClient) s pl now out, c.enabled = false →
      c.dispatch_json s pl now out = (false, 0)) ∧
    (∀ (c : DispatchClient) s serv oper det now out, c.enabled = false →
      c.dispatch_api_call s serv oper det now out = (false, 0)) ∧
    (∀ (c : DispatchClient) s pr rt ri u now out, c.enabled = false →
      c.dispatch_external_ref s pr rt ri u now out = (false, 0)) ∧
    (∀ (c : DispatchClient) s oper tb rws q now out, c.enabled = false →
      c.dispatch_db s oper tb rws q now out = (false, 0)) ∧
    (∀ (c : DispatchClient) s mn d isum now out, c.enabled = false →
      c.dispatch_model s mn d isum now out = (false, 0)) ∧
    (∀ (c : ImprovementsClient) proj out, c.enabled = false →
      c.list_improvements proj out = ([], 0)) ∧
    (∀ (c : ImprovementsClient) t d dk st out, c.enabled = false →
      c.create_improvement t d dk st out = (false, 0)) ∧
    (∀ (c : ImprovementsClient) u f out, c.enabled = false →
      c.update_improvement u f out = (false, 0)) ∧
    (∀ (c : ImprovementsClient) u out, c.enabled = false →
      c.delete_improvement u out = (false, 0)) ∧
    (∀ (c : ImprovementsClient) iu a p out, c.enabled = false →
      c.emit_improvement_event iu a p out = (false, 0)) := by
  refine ⟨?_, ?_, ?_, ?_, ?_, ?_, ?_, ?_, ?_, ?_, ?_, ?_, ?_, ?_⟩
  · intro url tok tick run msg tms mb dbg
    simp [mkDispatchClient, and_assoc]
  · intro url tok proj tick run tms mb dbg
    simp [mkImprovementsClient, and_assoc]
  · intro c k s p src cts skip now out h
    simp [DispatchClient.dispatch, h]
  · intro c s t now out h
    simp [DispatchClient.dispatch_text, DispatchClient.dispatch, h]
  · intro c s pl now out h
    simp [DispatchClient.dispatch_json, DispatchClient.dispatch, h]
  · intro c s serv oper det now out h
    simp [DispatchClient.dispatch_api_call, DispatchClient.dispatch, h]
  · intro c s pr rt ri u now out h
    simp [DispatchClient.dispatch_external_ref, DispatchClient.dispatch, h]
  · intro c s oper tb rws q now out h
    simp [DispatchClient.dispatch_db, DispatchClient.dispatch, h]
  · intro c s mn d isum now out h
    simp [DispatchClient.dispatch_model, DispatchClient.dispatch, h]
  · intro c proj out h
    simp [ImprovementsClient.list_improvements, h]
  · intro c t d dk st out h
    simp [ImprovementsClient.create_improvement, h]
  · intro c u f out h
    simp [ImprovementsClient.update_improvement, h]
  · intro c u out h
    simp [ImprovementsClient.delete_improvement, h]
  · intro c iu a p out h
    simp [ImprovementsClient.emit_improvement_event, h]

/-- Witness for C5: the fully unconfigured dispatch client is disabled and
dispatching on it is an inert `(false, 0)`. -/
theorem noop_client_spec_witness :
    ((mkDispatchClient none none none none none 1500 65536 false).enabled
      = false) ∧
    (mkDispatchClient none none none none none 1500 65536
        false).dispatch "text".data "Test".data none "sdk".data none false
        "" (.exn (.transportError "unreachable")) = (false, 0) := by
  refine ⟨rfl, ?_⟩
  exact noop_client_spec.2.2.1 (mkDispatchClient none none none none none
    1500 65536 false) "text".data "Test".data none "sdk".data none false ""
    (.exn (.transportError "unreachable")) rfl

/-! ## Closed forms of the client operations (shared lemmas) -/

/-- Closed form of `DispatchClient.dispatch`: the try/except body either
reaches `_send` (enabled and the entry validated) or collapses to
`(false, 0)`. -/
theorem dispatch_result_eq (c : DispatchClient) (k s : List Char)
    (p : Option Val) (src : List Char) (cts : Option String) (skip : Bool)
    (now : String) (out : HttpOutcome) :
    c.dispatch k s p src cts skip now out =
      if (c.enabled &&
          (buildDispatchEntry c.ticket_uuid c.run_uuid k
            (replaceNewlineWithSpace (truncateSummary s)) c.message_uuid
            (p.map fun q => truncate_payload c.max_bytes (redact_payload q skip))
            src SCHEMA_VERSION (some (pyOrStr cts now))).isOk) = true
      then (requestSucceeded out, 1) else (false, 0) := by
  by_cases he : c.enabled = true
  · cases hb : buildDispatchEntry c.ticket_uuid c.run_uuid k
        (replaceNewlineWithSpace (truncateSummary s)) c.message_uuid
        (p.map fun q => truncate_payload c.max_bytes (redact_payload q skip))
        src SCHEMA_VERSION (some (pyOrStr cts now)) with
    | error err =>
        simp [DispatchClient.dispatch, he, hb, Except.isOk, Except.toBool]
    | ok en =>
        simp [DispatchClient.dispatch, he, hb, Except.isOk, Except.toBool]
  · have he' : c.enabled = false := by simpa using he
    simp [DispatchClient.dispatch, he']

/-- A `true` dispatch result needs an enabled client, a validated entry,
and a 2xx response. -/
theorem dispatch_fst_true_iff (c : DispatchClient) (k s : List Char)
    (p : Option Val) (src : List Char) (cts : Option String) (skip : Bool)
    (now : String) (out : HttpOutcome) :
    (c.dispatch k s p src cts skip now out).1 = true ↔
      c.enabled = true ∧
      (buildDispatchEntry c.ticket_uuid c.run_uuid k
        (replaceNewlineWithSpace (truncateSummary s)) c.message_uuid
        (p.map fun q => truncate_payload c.max_bytes (redact_payload q skip))
        src SCHEMA_VERSION (some (pyOrStr cts now))).isOk = true ∧
      requestSucceeded out = true := by
  rw [dispatch_result_eq]
  by_cases hc : (c.enabled &&
      (buildDispatchEntry c.ticket_uuid c.run_uuid k
        (replaceNewlineWithSpace (truncateSummary s)) c.message_uuid
        (p.map fun q => truncate_payload c.max_bytes (redact_payload q skip))
        src SCHEMA_VERSION (some (pyOrStr cts now))).isOk) = true
  · rw [if_pos hc]
    have hc2 : c.enabled = true ∧
        (buildDispatchEntry c.ticket_uuid c.run_uuid k
          (replaceNewlineWithSpace (truncateSummary s)) c.message_uuid
          (p.map fun q => truncate_payload c.max_bytes (redact_payload q skip))
          src SCHEMA_VERSION (some (pyOrStr cts now))).isOk = true := by
      simpa using hc
    simp [hc2.1, hc2.2]
  · rw [if_neg hc]
    rw [Bool.and_eq_true] at hc
    simp only [Prod.fst]
    constructor
    · intro h
      exact absurd h (by simp)
    · intro ⟨h1, h2, _⟩
      exact absurd ⟨h1, h2⟩ hc

/-- Closed form of `create_improvement`. -/
theorem create_improvement_result_eq (c : ImprovementsClient)
    (t : List Char) (d dk : Option (List Char)) (st : String)
    (out : HttpOutcome) :
    c.create_improvement t d dk st out =
      if (c.enabled && (validateImprovementCreate t dk st).isOk) = true
      then (requestSucceeded out, 1) else (false, 0) := by
  by_cases he : c.enabled = true
  · cases hv : validateImprovementCreate t dk st with
    | error err =>
        simp [ImprovementsClient.create_improvement, he, hv, Except.isOk,
          Except.toBool]
    | ok uu =>
        simp [ImprovementsClient.create_improvement, he, hv, Except.isOk,
          Except.toBool]
  · have he' : c.enabled = false := by simpa using he
    simp [ImprovementsClient.create_improvement, he']

/-- Closed form of `update_improvement`. -/
theorem update_improvement_result_eq (c : ImprovementsClient)
    (u : String) (f : List (String × Val)) (out : HttpOutcome) :
    c.update_improvement u f out =
      if (c.enabled && !(f.filter isValidUpdateField).isEmpty &&
          (validateImprovementUpdate (f.filter isValidUpdateField)).isOk)
        = true
      then (requestSucceeded out, 1) else (false, 0) := by
  by_cases he : c.enabled = true
  · by_cases hf : (f.filter isValidUpdateField).isEmpty = true
    · simp [ImprovementsClient.update_improvement, he, hf]
    · have hf' : (f.filter isValidUpdateField).isEmpty = false := by
        simpa using hf
      cases hv : validateImprovementUpdate (f.filter isValidUpdateField) with
      | error err =>
          simp [ImprovementsClient.update_improvement, he, hf', hv,
            Except.isOk, Except.toBool]
      | ok uu =>
          simp [ImprovementsClient.update_improvement, he, hf', hv,
            Except.isOk, Except.toBool]
  · have he' : c.enabled = false := by simpa using he
    simp [ImprovementsClient.update_improvement, he']

/-- Closed form of `delete_improvement`. -/
theorem delete_improvement_result_eq (c : ImprovementsClient) (u : String)
    (out : HttpOutcome) :
    c.delete_improvement u out =
      if c.enabled = true then (requestSucceeded out, 1) else (false, 0) := by
  by_cases he : c.enabled = true
  · simp [ImprovementsClient.delete_improvement, he]
  · have he' : c.enabled = false := by simpa using he
    simp [ImprovementsClient.delete_improvement, he']

/-- Closed form of `emit_improvement_event`. -/
theorem emit_improvement_event_result_eq (c : ImprovementsClient)
    (iu : String) (a : List Char) (p : Option Val) (out : HttpOutcome) :
    c.emit_improvement_event iu a p out =
      if (c.enabled && (validateImprovementEvent a
          (p.map fun q => truncate_payload c.max_bytes
            (redact_payload q false))).isOk) = true
      then (requestSucceeded out, 1) else (false, 0) := by
  by_cases he : c.enabled = true
  · cases hv : validateImprovementEvent a
        (p.map fun q => truncate_payload c.max_bytes
          (redact_payload q false)) with
    | error err =>
        simp [ImprovementsClient.emit_improvement_event, he, hv,
          Except.isOk, Except.toBool]
    | ok uu =>
        simp [ImprovementsClient.emit_improvement_event, he, hv,
          Except.isOk, Except.toBool]
  · have he' : c.enabled = false := by simpa using he
    simp [ImprovementsClient.emit_improvement_event, he']

/-! ## Claim C4: the never-raise contract of the clients -/

/-- **C4.** Every public operation of the two clients is a total function
into its plain result type: a raised transport exception, a non-2xx
status, a failed response parse, or a failed validation all collapse to
the operation's no-op result (`false`, or `[]` for the list operation),
and a non-no-op result can only arise on the full success path (enabled
client, validation passed, 2xx response). -/
theorem never_raise_spec :
    (∀ (c : DispatchClient) k s p src cts skip now e,
      (c.dispatch k s p src cts skip now (.exn e)).1 = false) ∧
    (∀ (c : DispatchClient) k s p src cts skip now st b, is2xx st = false →
      (c.dispatch k s p src cts skip now (.resp st b)).1 = false) ∧
    (∀ (c : DispatchClient) k s p src cts skip now out,
      (buildDispatchEntry c.ticket_uuid c.run_uuid k
        (replaceNewlineWithSpace (truncateSummary s)) c.message_uuid
        (p.map fun q => truncate_payload c.max_bytes (redact_payload q skip))
        src SCHEMA_VERSION (some (pyOrStr cts now))).isOk = false →
      (c.dispatch k s p src cts skip now out).1 = false) ∧
    (∀ (c : DispatchClient) k s p src cts skip now out,
      (c.dispatch k s p src cts skip now out).1 = true →
      c.enabled = true ∧ requestSucceeded out = true) ∧
    (∀ (c : DispatchClient) s t now out,
      (c.dispatch_text s t now out).1 = true →
      c.enabled = true ∧ requestSucceeded out = true) ∧
    (∀ (c : DispatchClient) s pl now out,
      (c.dispatch_json s pl now out).1 = true →
      c.enabled = true ∧ requestSucceeded out = true) ∧
    (∀ (c : DispatchClient) s serv oper det now out,
      (c.dispatch_api_call s serv oper det now out).1 = true →
      c.enabled = true ∧ requestSucceeded out = true) ∧
    (∀ (c : DispatchClient) s pr rt ri u now out,
      (c.dispatch_external_ref s pr rt ri u now out).1 = true →
      c.enabled = true ∧ requestSucceeded out = true) ∧
    (∀ (c : DispatchClient) s oper tb rws q now out,
      (c.dispatch_db s oper tb rws q now out).1 = true →
      c.enabled = true ∧ requestSucceeded out = true) ∧
    (∀ (c : DispatchClient) s mn d isum now out,
      (c.dispatch_model s mn d isum now out).1 = true →
      c.enabled = true ∧ requestSucceeded out = true) ∧
    (∀ (c : ImprovementsClient) proj e,
      (c.list_improvements proj (.exn e)).1 = []) ∧
    (∀ (c : ImprovementsClient) proj st b, is2xx st = false →
      (c.list_improvements proj (.resp st b)).1 = []) ∧
    (∀ (c : ImprovementsClient) proj st e,
      (c.list_improvements proj (.resp st (.error e))).1 = []) ∧
    (∀ (c : ImprovementsClient) proj out,
      (c.list_improvements proj out).1 ≠ [] →
      c.enabled = true ∧ ∃ st b, out = .resp st b ∧ is2xx st = true) ∧
    (∀ (c : ImprovementsClient) t d dk st e,
      (c.create_improvement t d dk st (.exn e)).1 = false) ∧
    (∀ (c : ImprovementsClient) t d dk st out,
      (validateImprovementCreate t dk st).isOk = false →
      c.create_improvement t d dk st out = (false, 0)) ∧
    (∀ (c : ImprovementsClient) t d dk st out,
      (c.create_improvement t d dk st out).1 = true →
      c.enabled = true ∧ requestSucceeded out = true) ∧
    (∀ (c : ImprovementsClient) u f e,
      (c.update_improvement u f (.exn e)).1 = false) ∧
    (∀ (c : ImprovementsClient) u f out,
      (c.update_improvement u f out).1 = true →
      c.enabled = true ∧ requestSucceeded out = true) ∧
    (∀ (c : ImprovementsClient) u e,
      (c.delete_improvement u (.exn e)).1 = false) ∧
    (∀ (c : ImprovementsClient) u out,
      (c.delete_improvement u out).1 = true →
      c.enabled = true ∧ requestSucceeded out = true) ∧
    (∀ (c : ImprovementsClient) iu a p out,
      (validateImprovementEvent a
        (p.map fun q => truncate_payload c.max_bytes
          (redact_payload q false))).isOk = false →
      c.emit_improvement_event iu a p out = (false, 0)) ∧
    (∀ (c : ImprovementsClient) iu a p out,
      (c.emit_improvement_event iu a p out).1 = true →
      c.enabled = true ∧ requestSucceeded out = true) := by
  have hlistnil : ∀ (c : ImprovementsClient) proj e,
      (c.list_improvements proj (HttpOutcome.exn e)).1 = [] := by
    intro c proj e
    by_cases he : c.enabled = true
    · simp [ImprovementsClient.list_improvements, he]
    · have he' : c.enabled = false := by simpa using he
      simp [ImprovementsClient.list_improvements, he']
  refine ⟨?_, ?_, ?_, ?_, ?_, ?_, ?_, ?_, ?_, ?_, hlistnil, ?_, ?_, ?_,
    ?_, ?_, ?_, ?_, ?_, ?_, ?_, ?_, ?_⟩
  · intro c k s p src cts skip now e
    rw [dispatch_result_eq]
    split <;> rfl
  · intro c k s p src cts skip now st b h
    rw [dispatch_result_eq]
    split
    · simp [requestSucceeded, h]
    · rfl
  · intro c k s p src cts skip now out h
    rw [dispatch_result_eq, if_neg (by simp [h])]
  · intro c k s p src cts skip now out h
    have h2 := (dispatch_fst_true_iff c k s p src cts skip now out).mp h
    exact ⟨h2.1, h2.2.2⟩
  · intro c s t now out h
    simp only [DispatchClient.dispatch_text] at h
    have h2 := (dispatch_fst_true_iff _ _ _ _ _ _ _ _ _).mp h
    exact ⟨h2.1, h2.2.2⟩
  · intro c s pl now out h
    rw [DispatchClient.dispatch_json] at h
    have h2 := (dispatch_fst_true_iff _ _ _ _ _ _ _ _ _).mp h
    exact ⟨h2.1, h2.2.2⟩
  · intro c s serv oper det now out h
    rw [DispatchClient.dispatch_api_call] at h
    have h2 := (dispatch_fst_true_iff _ _ _ _ _ _ _ _ _).mp h
    exact ⟨h2.1, h2.2.2⟩
  · intro c s pr rt ri u now out h
    simp only [DispatchClient.dispatch_external_ref] at h
    have h2 := (dispatch_fst_true_iff _ _ _ _ _ _ _ _ _).mp h
    exact ⟨h2.1, h2.2.2⟩
  · intro c s oper tb rws q now out h
    simp only [DispatchClient.dispatch_db] at h
    have h2 := (dispatch_fst_true_iff _ _ _ _ _ _ _ _ _).mp h
    exact ⟨h2.1, h2.2.2⟩
  · intro c s mn d isum now out h
    simp only [DispatchClient.dispatch_model] at h
    have h2 := (dispatch_fst_true_iff _ _ _ _ _ _ _ _ _).mp h
    exact ⟨h2.1, h2.2.2⟩
  · intro c proj st b h
    by_cases he : c.enabled = true
    · simp [ImprovementsClient.list_improvements, he, h]
    · have he' : c.enabled = false := by simpa using he
      simp [ImprovementsClient.list_improvements, he']
  · intro c proj st e
    by_cases he : c.enabled = true
    · by_cases h2 : is2xx st = true
      · simp [ImprovementsClient.list_improvements, he, h2]
      · have h2' : is2xx st = false := by simpa using h2
        simp [ImprovementsClient.list_improvements, he, h2']
    · have he' : c.enabled = false := by simpa using he
      simp [ImprovementsClient.list_improvements, he']
  · intro c proj out h
    by_cases he : c.enabled = true
    · refine ⟨he, ?_⟩
      cases out with
      | exn e => exact absurd (hlistnil c proj e) h
      | resp st b =>
          refine ⟨st, b, rfl, ?_⟩
          by_cases h2 : is2xx st = true
          · exact h2
          · have h2' : is2xx st = false := by simpa using h2
            exact absurd (by
              simp [ImprovementsClient.list_improvements, he, h2']) h
    · have he' : c.enabled = false := by simpa using he
      exact absurd (by simp [ImprovementsClient.list_improvements, he']) h
  · intro c t d dk st e
    rw [create_improvement_result_eq]
    split <;> rfl
  · intro c t d dk st out h
    rw [create_improvement_result_eq, if_neg (by simp [h])]
  · intro c t d dk st out h
    rw [create_improvement_result_eq] at h
    by_cases hc : (c.enabled && (validateImprovementCreate t dk st).isOk)
        = true
    · rw [if_pos hc] at h
      have hc2 : c.enabled = true ∧
          (validateImprovementCreate t dk st).isOk = true := by
        simpa using hc
      exact ⟨hc2.1, h⟩
    · rw [if_neg hc] at h
      exact absurd h (by simp)
  · intro c u f e
    rw [update_improvement_result_eq]
    split <;> rfl
  · intro c u f out h
    rw [update_improvement_result_eq] at h
    by_cases hc : (c.enabled && !(f.filter isValidUpdateField).isEmpty &&
        (validateImprovementUpdate (f.filter isValidUpdateField)).isOk)
        = true
    · rw [if_pos hc] at h
      have hc2 : c.enabled = true := by
        have := Bool.and_elim_left (Bool.and_elim_left hc)
        simpa using this
      exact ⟨hc2, h⟩
    · rw [if_neg hc] at h
      exact absurd h (by simp)
  · intro c u e
    rw [delete_improvement_result_eq]
    split <;> rfl
  · intro c u out h
    rw [delete_improvement_result_eq] at h
    by_cases he : c.enabled = true
    · rw [if_pos he] at h
      exact ⟨he, h⟩
    · rw [if_neg he] at h
      exact absurd h (by simp)
  · intro c iu a p out h
    rw [emit_improvement_event_result_eq, if_neg (by simp [h])]
  · intro c iu a p out h
    rw [emit_improvement_event_result_eq] at h
    by_cases hc : (c.enabled && (validateImprovementEvent a
        (p.map fun q => truncate_payload c.max_bytes
          (redact_payload q false))).isOk) = true
    · rw [if_pos hc] at h
      have hc2 : c.enabled = true ∧
          (validateImprovementEvent a
            (p.map fun q => truncate_payload c.max_bytes
              (redact_payload q false))).isOk = true := by simpa using hc
      exact ⟨hc2.1, h⟩
    · rw [if_neg hc] at h
      exact absurd h (by simp)

/-- Witness for C4: a concrete enabled client receiving a 500 response
returns `false` from `dispatch`, and a raised timeout yields `[]` from
`list_improvements`. -/
theorem never_raise_spec_witness :
    ((mkDispatchClient (some "http://test/dispatch") (some "token")
        (some "ticket-123") (some "run-456") none 1500 65536
        false).dispatch "text".data "Test".data none "sdk".data none false
        "" (.resp 500 (.ok Val.vnull))).1 = false ∧
    ((mkImprovementsClient (some "http://test/improvements")
        (some "token") none none (some "run-456") 1500 65536
        false).list_improvements none
        (.exn (.transportError "timeout"))).1 = [] := by
  constructor
  · exact never_raise_spec.2.1 (mkDispatchClient (some "http://test/dispatch")
      (some "token") (some "ticket-123") (some "run-456") none 1500 65536
      false) "text".data "Test".data none "sdk".data none false "" 500
      (.ok Val.vnull) rfl
  · exact never_raise_spec.2.2.2.2.2.2.2.2.2.2.1
      (mkImprovementsClient (some "http://test/improvements") (some "token")
        none none (some "run-456") 1500 65536 false) none
      (.transportError "timeout")

/-! ## Claim C10: `update_improvement` field filtering -/

/-- **C10.** On an enabled client, `update_improvement` returns `false`
with no HTTP request whenever no supplied keyword argument is a non-`None`
value named `title`, `description` or `status`; and a keyword argument
outside that set (or set to `None`) is silently dropped — removing it
changes nothing about the call's behavior. -/
theorem update_improvement_field_filter :
    (∀ (c : ImprovementsClient) u f out, c.enabled = true →
      (f.filter isValidUpdateField).isEmpty = true →
      c.update_improvement u f out = (false, 0)) ∧
    (∀ (c : ImprovementsClient) u k v f out,
      isValidUpdateField (k, v) = false →
      c.update_improvement u ((k, v) :: f) out =
        c.update_improvement u f out) := by
  constructor
  · intro c u f out he hf
    rw [update_improvement_result_eq, if_neg (by simp [hf])]
  · intro c u k v f out h
    rw [update_improvement_result_eq, update_improvement_result_eq,
      List.filter_cons_of_neg (by simp [h])]

/-- Witness for C10: an enabled client given only an unknown field and a
`None`-valued `title` performs no update. -/
theorem update_improvement_field_filter_witness :
    (mkImprovementsClient (some "http://test/improvements") (some "token")
        none none (some "run-456") 1500 65536 false).update_improvement
      "uuid-123" [("bogus", Val.vint 1), ("title", Val.vnull)]
      (.resp 200 (.ok Val.vnull)) = (false, 0) :=
  update_improvement_field_filter.1
    (mkImprovementsClient (some "http://test/improvements") (some "token")
      none none (some "run-456") 1500 65536 false)
    "uuid-123" [("bogus", Val.vint 1), ("title", Val.vnull)]
    (.resp 200 (.ok Val.vnull)) rfl rfl

/-! ## Claim C9: malformed numeric environment variables at construction -/

/-- **C9.** `from_env` raises at construction time — the error propagating
to the caller rather than any default being substituted — exactly when the
timeout-in-milliseconds or max-payload-bytes variable is present but does
not parse as a Python `int`; a well-formed or absent value never raises
(an absent value parses the built-in default string). -/
theorem from_env_numeric_validation :
    (∀ env : DispatchEnv,
      (dispatchFromEnv env).isOk = false ↔
        (pyIntParse (env.FULCRUM_DISPATCH_TIMEOUT_MS.getD "1500") = none ∨
         pyIntParse (env.FULCRUM_DISPATCH_MAX_BYTES.getD "65536") = none)) ∧
    (∀ env : DispatchEnv, env.FULCRUM_DISPATCH_TIMEOUT_MS = none →
      env.FULCRUM_DISPATCH_MAX_BYTES = none →
      (dispatchFromEnv env).isOk = true) ∧
    (∀ env : ImprovementsEnv,
      (improvementsFromEnv env).isOk = false ↔
        (pyIntParse (env.FULCRUM_IMPROVEMENTS_TIMEOUT_MS.getD "1500")
          = none ∨
         pyIntParse (env.FULCRUM_IMPROVEMENTS_MAX_BYTES.getD "65536")
          = none)) ∧
    (∀ env : ImprovementsEnv, env.FULCRUM_IMPROVEMENTS_TIMEOUT_MS = none →
      env.FULCRUM_IMPROVEMENTS_MAX_BYTES = none →
      (improvementsFromEnv env).isOk = true) := by
  refine ⟨?_, ?_, ?_, ?_⟩
  · intro env
    cases h1 : pyIntParse (env.FULCRUM_DISPATCH_TIMEOUT_MS.getD "1500") with
    | none =>
        simp [dispatchFromEnv, pyInt, h1, Except.isOk, Except.toBool, Bind.bind, Except.bind]
    | some n1 =>
        cases h2 : pyIntParse (env.FULCRUM_DISPATCH_MAX_BYTES.getD "65536")
          with
        | none =>
            simp [dispatchFromEnv, pyInt, h1, h2, Except.isOk, Except.toBool, Bind.bind, Except.bind]
        | some n2 =>
            simp [dispatchFromEnv, pyInt, h1, h2, Except.isOk, Except.toBool, Bind.bind, Except.bind]
  · intro env h1 h2
    have e1 : pyIntParse "1500" = some 1500 := rfl
    have e2 : pyIntParse "65536" = some 65536 := rfl
    simp [dispatchFromEnv, pyInt, h1, h2, e1, e2, Except.isOk, Except.toBool, Bind.bind, Except.bind]
  · intro env
    cases h1 : pyIntParse (env.FULCRUM_IMPROVEMENTS_TIMEOUT_MS.getD "1500")
      with
    | none =>
        simp [improvementsFromEnv, pyInt, h1, Except.isOk, Except.toBool, Bind.bind, Except.bind]
    | some n1 =>
        cases h2 : pyIntParse
            (env.FULCRUM_IMPROVEMENTS_MAX_BYTES.getD "65536") with
        | none =>
            simp [improvementsFromEnv, pyInt, h1, h2, Except.isOk,
              Except.toBool, Bind.bind, Except.bind]
        | some n2 =>
            simp [improvementsFromEnv, pyInt, h1, h2, Except.isOk,
              Except.toBool, Bind.bind, Except.bind]
  · intro env h1 h2
    have e1 : pyIntParse "1500" = some 1500 := rfl
    have e2 : pyIntParse "65536" = some 65536 := rfl
    simp [improvementsFromEnv, pyInt, h1, h2, e1, e2, Except.isOk,
      Except.toBool, Bind.bind, Except.bind]

/-- Witness for C9: a malformed timeout raises, a well-formed one does
not. -/
theorem from_env_numeric_validation_witness :
    ((dispatchFromEnv
      { FULCRUM_DISPATCH_URL := some "http://test/dispatch",
        FULCRUM_DISPATCH_TOKEN := some "token",
        FULCRUM_TICKET_UUID := some "ticket-123",
        FULCRUM_RUN_UUID := some "run-456",
        FULCRUM_MESSAGE_UUID := none,
        FULCRUM_DISPATCH_DEBUG := none,
        FULCRUM_DISPATCH_TIMEOUT_MS := some "not_a_number",
        FULCRUM_DISPATCH_MAX_BYTES := none }).isOk = false) ∧
    ((dispatchFromEnv
      { FULCRUM_DISPATCH_URL := some "http://test/dispatch",
        FULCRUM_DISPATCH_TOKEN := some "token",
        FULCRUM_TICKET_UUID := some "ticket-123",
        FULCRUM_RUN_UUID := some "run-456",
        FULCRUM_MESSAGE_UUID := none,
        FULCRUM_DISPATCH_DEBUG := none,
        FULCRUM_DISPATCH_TIMEOUT_MS := none,
        FULCRUM_DISPATCH_MAX_BYTES := none }).isOk = true) := by
  constructor
  · exact (from_env_numeric_validation.1 _).mpr (Or.inl rfl)
  · exact from_env_numeric_validation.2.1 _ rfl rfl

/-! ## Claim C2: no mutation, no shared containers

Python mutability lives in object identity, so here the payload tree is
re-embedded with an explicit identity on every container (`HVal`), and the
redaction functions are re-run with an explicit allocator: every dict or
list the Python code creates (`result = {}`, a list comprehension, a dict
comprehension) takes a fresh identity from the counter.  The code performs
no mutating operation on any input container — it only iterates them — so
in this embedding the input tree appears unchanged in the result and the
formal content of the claim is that the output shares no container
identity with the input. -/

/-- A payload tree whose containers carry an object identity. -/
inductive HVal where
  | hstr (s : String)
  | hint (n : Int)
  | hbool (b : Bool)
  | hnull
  | hlist (id : Nat) (items : List HVal)
  | hdict (id : Nat) (entries : List (PyKey × HVal))
deriving Repr

mutual

/-- `_redact_recursive` with explicit allocation: each created container
takes the next identity from the counter. -/
def redactRecursiveH : HVal → Nat → HVal × Nat
  | .hdict _ entries, n =>
      let p := redactEntriesH entries (n + 1)
      (.hdict n p.1, p.2)
  | .hlist _ items, n =>
      let p := redactItemsH items (n + 1)
      (.hlist n p.1, p.2)
  | v, n => (v, n)

/-- The dict loop of `_redact_recursive`, threading the allocator. -/
def redactEntriesH : List (PyKey × HVal) → Nat → List (PyKey × HVal) × Nat
  | [], n => ([], n)
  | (key, value) :: rest, n =>
      if REDACT_KEYS_PY.contains (pyKeyLower key) then
        let p := redactEntriesH rest n
        ((key, .hstr REDACTED_VALUE) :: p.1, p.2)
      else
        let q := redactRecursiveH value n
        let p := redactEntriesH rest q.2
        ((key, q.1) :: p.1, p.2)

/-- The list comprehension of `_redact_recursive`, threading the
allocator. -/
def redactItemsH : List HVal → Nat → List HVal × Nat
  | [], n => ([], n)
  | item :: rest, n =>
      let q := redactRecursiveH item n
      let p := redactItemsH rest q.2
      (q.1 :: p.1, p.2)

end

mutual

/-- `_deep_copy` with explicit allocation. -/
def deepCopyH : HVal → Nat → HVal × Nat
  | .hdict _ entries, n =>
      let p := deepCopyEntriesH entries (n + 1)
      (.hdict n p.1, p.2)
  | .hlist _ items, n =>
      let p := deepCopyItemsH items (n + 1)
      (.hlist n p.1, p.2)
  | v, n => (v, n)

/-- The dict comprehension of `_deep_copy`, threading the allocator. -/
def deepCopyEntriesH : List (PyKey × HVal) → Nat → List (PyKey × HVal) × Nat
  | [], n => ([], n)
  | (key, value) :: rest, n =>
      let q := deepCopyH value n
      let p := deepCopyEntriesH rest q.2
      ((key, q.1) :: p.1, p.2)

/-- The list comprehension of `_deep_copy`, threading the allocator. -/
def deepCopyItemsH : List HVal → Nat → List HVal × Nat
  | [], n => ([], n)
  | item :: rest, n =>
      let q := deepCopyH item n
      let p := deepCopyItemsH rest q.2
      (q.1 :: p.1, p.2)

end

/-- `redact_payload` with explicit allocation. -/
def redactPayloadH (payload : HVal) (skip_redaction : Bool) (n : Nat) :
    HVal × Nat :=
  if skip_redaction then deepCopyH payload n
  else redactRecursiveH payload n

mutual

/-- The identities of all containers (dicts and lists) in a tree. -/
def containerIds : HVal → List Nat
  | .hdict id entries => id :: containerIdsEntries entries
  | .hlist id items => id :: containerIdsItems items
  | _ => []

/-- Container identities below a dict's entries. -/
def containerIdsEntries : List (PyKey × HVal) → List Nat
  | [] => []
  | (_, value) :: rest => containerIds value ++ containerIdsEntries rest

/-- Container identities below a list's items. -/
def containerIdsItems : List HVal → List Nat
  | [] => []
  | item :: rest => containerIds item ++ containerIdsItems rest

end

mutual

/-- Forget the identities. -/
def eraseH : HVal → Val
  | .hstr s => .vstr s
  | .hint n => .vint n
  | .hbool b => .vbool b
  | .hnull => .vnull
  | .hlist _ items => .vlist (eraseItemsH items)
  | .hdict _ entries => .vdict (eraseEntriesH entries)

/-- Forget the identities below a dict's entries. -/
def eraseEntriesH : List (PyKey × HVal) → List (PyKey × Val)
  | [] => []
  | (key, value) :: rest => (key, eraseH value) :: eraseEntriesH rest

/-- Forget the identities below a list's items. -/
def eraseItemsH : List HVal → List Val
  | [] => []
  | item :: rest => eraseH item :: eraseItemsH rest

end

/-- Structural induction over `HVal` with membership hypotheses. -/
theorem hvalInduct (P : HVal → Prop)
    (hstr : ∀ s, P (.hstr s)) (hint : ∀ n, P (.hint n))
    (hbool : ∀ b, P (.hbool b)) (hnull : P .hnull)
    (hlist : ∀ id items, (∀ v ∈ items, P v) → P (.hlist id items))
    (hdict : ∀ id entries, (∀ kv ∈ entries, P kv.2) → P (.hdict id entries)) :
    ∀ v, P v
  | .hstr s => hstr s
  | .hint n => hint n
  | .hbool b => hbool b
  | .hnull => hnull
  | .hlist id items =>
      hlist id items (fun v hv =>
        hvalInduct P hstr hint hbool hnull hlist hdict v)
  | .hdict id entries =>
      hdict id entries (fun kv hkv =>
        hvalInduct P hstr hint hbool hnull hlist hdict kv.2)
termination_by v => sizeOf v
decreasing_by
  · have h := List.sizeOf_lt_of_mem hv
    simp only [HVal.hlist.sizeOf_spec]
    omega
  · have h := List.sizeOf_lt_of_mem hkv
    have h2 : sizeOf kv.2 < sizeOf kv := by
      obtain ⟨k, v⟩ := kv
      show sizeOf v < sizeOf (k, v)
      simp only [Prod.mk.sizeOf_spec]
      omega
    simp only [HVal.hdict.sizeOf_spec]
    omega

/-- Allocation bounds for the dict loop: the counter never decreases, and
every container identity in the output lies in the consumed range. -/
theorem redactEntriesH_ids (entries : List (PyKey × HVal))
    (IH : ∀ kv ∈ entries, ∀ m : Nat, m ≤ (redactRecursiveH kv.2 m).2 ∧
      ∀ i ∈ containerIds (redactRecursiveH kv.2 m).1,
        m ≤ i ∧ i < (redactRecursiveH kv.2 m).2) :
    ∀ n : Nat, n ≤ (redactEntriesH entries n).2 ∧
      ∀ i ∈ containerIdsEntries (redactEntriesH entries n).1,
        n ≤ i ∧ i < (redactEntriesH entries n).2 := by
  induction entries with
  | nil =>
      intro n
      simp [redactEntriesH, containerIdsEntries]
  | cons kv rest ih =>
      intro n
      obtain ⟨key, value⟩ := kv
      have IHv := IH (key, value) (List.mem_cons_self _ _)
      dsimp only at IHv
      have IHrest := ih (fun kv2 h2 => IH kv2 (List.mem_cons_of_mem _ h2))
      by_cases hk : REDACT_KEYS_PY.contains (pyKeyLower key) = true
      · have hr := IHrest n
        simp only [redactEntriesH, hk, if_pos, containerIdsEntries,
          containerIds, List.nil_append]
        exact ⟨hr.1, hr.2⟩
      · have hv := IHv n
        have hr := IHrest (redactRecursiveH value n).2
        simp only [redactEntriesH, hk, if_neg, Bool.false_eq_true,
          not_false_iff, containerIdsEntries]
        constructor
        · omega
        · intro i hi
          rcases List.mem_append.mp hi with hi1 | hi2
          · have := hv.2 i hi1
            have := hr.1
            omega
          · have := hr.2 i hi2
            omega

/-- Allocation bounds for the list comprehension. -/
theorem redactItemsH_ids (items : List HVal)
    (IH : ∀ v ∈ items, ∀ m : Nat, m ≤ (redactRecursiveH v m).2 ∧
      ∀ i ∈ containerIds (redactRecursiveH v m).1,
        m ≤ i ∧ i < (redactRecursiveH v m).2) :
    ∀ n : Nat, n ≤ (redactItemsH items n).2 ∧
      ∀ i ∈ containerIdsItems (redactItemsH items n).1,
        n ≤ i ∧ i < (redactItemsH items n).2 := by
  induction items with
  | nil =>
      intro n
      simp [redactItemsH, containerIdsItems]
  | cons v rest ih =>
      intro n
      have IHv := IH v (List.mem_cons_self _ _)
      have IHrest := ih (fun v2 h2 => IH v2 (List.mem_cons_of_mem _ h2))
      have hv := IHv n
      have hr := IHrest (redactRecursiveH v n).2
      simp only [redactItemsH, containerIdsItems]
      constructor
      · omega
      · intro i hi
        rcases List.mem_append.mp hi with hi1 | hi2
        · have := hv.2 i hi1
          have := hr.1
          omega
        · have := hr.2 i hi2
          omega

/-- Allocation bounds for `_redact_recursive`: every container of the
output is freshly allocated at or above the starting counter. -/
theorem redactRecursiveH_ids (v : HVal) :
    ∀ n : Nat, n ≤ (redactRecursiveH v n).2 ∧
      ∀ i ∈ containerIds (redactRecursiveH v n).1,
        n ≤ i ∧ i < (redactRecursiveH v n).2 := by
  induction v using hvalInduct with
  | hstr s => intro n; simp [redactRecursiveH, containerIds]
  | hint m => intro n; simp [redactRecursiveH, containerIds]
  | hbool b => intro n; simp [redactRecursiveH, containerIds]
  | hnull => intro n; simp [redactRecursiveH, containerIds]
  | hlist id items ih =>
      intro n
      have h := redactItemsH_ids items ih (n + 1)
      simp only [redactRecursiveH, containerIds]
      constructor
      · omega
      · intro i hi
        rcases List.mem_cons.mp hi with hi1 | hi2
        · omega
        · have := h.2 i hi2
          omega
  | hdict id entries ih =>
      intro n
      have h := redactEntriesH_ids entries ih (n + 1)
      simp only [redactRecursiveH, containerIds]
      constructor
      · omega
      · intro i hi
        rcases List.mem_cons.mp hi with hi1 | hi2
        · omega
        · have := h.2 i hi2
          omega

/-- Allocation bounds for the dict comprehension of `_deep_copy`. -/
theorem deepCopyEntriesH_ids (entries : List (PyKey × HVal))
    (IH : ∀ kv ∈ entries, ∀ m : Nat, m ≤ (deepCopyH kv.2 m).2 ∧
      ∀ i ∈ containerIds (deepCopyH kv.2 m).1,
        m ≤ i ∧ i < (deepCopyH kv.2 m).2) :
    ∀ n : Nat, n ≤ (deepCopyEntriesH entries n).2 ∧
      ∀ i ∈ containerIdsEntries (deepCopyEntriesH entries n).1,
        n ≤ i ∧ i < (deepCopyEntriesH entries n).2 := by
  induction entries with
  | nil =>
      intro n
      simp [deepCopyEntriesH, containerIdsEntries]
  | cons kv rest ih =>
      intro n
      obtain ⟨key, value⟩ := kv
      have IHv := IH (key, value) (List.mem_cons_self _ _)
      dsimp only at IHv
      have IHrest := ih (fun kv2 h2 => IH kv2 (List.mem_cons_of_mem _ h2))
      have hv := IHv n
      have hr := IHrest (deepCopyH value n).2
      simp only [deepCopyEntriesH, containerIdsEntries]
      constructor
      · omega
      · intro i hi
        rcases List.mem_append.mp hi with hi1 | hi2
        · have := hv.2 i hi1
          have := hr.1
          omega
        · have := hr.2 i hi2
          omega

/-- Allocation bounds for the list comprehension of `_deep_copy`. -/
theorem deepCopyItemsH_ids (items : List HVal)
    (IH : ∀ v ∈ items, ∀ m : Nat, m ≤ (deepCopyH v m).2 ∧
      ∀ i ∈ containerIds (deepCopyH v m).1,
        m ≤ i ∧ i < (deepCopyH v m).2) :
    ∀ n : Nat, n ≤ (deepCopyItemsH items n).2 ∧
      ∀ i ∈ containerIdsItems (deepCopyItemsH items n).1,
        n ≤ i ∧ i < (deepCopyItemsH items n).2 := by
  induction items with
  | nil =>
      intro n
      simp [deepCopyItemsH, containerIdsItems]
  | cons v rest ih =>
      intro n
      have IHv := IH v (List.mem_cons_self _ _)
      have IHrest := ih (fun v2 h2 => IH v2 (List.mem_cons_of_mem _ h2))
      have hv := IHv n
      have hr := IHrest (deepCopyH v n).2
      simp only [deepCopyItemsH, containerIdsItems]
      constructor
      · omega
      · intro i hi
        rcases List.mem_append.mp hi with hi1 | hi2
        · have := hv.2 i hi1
          have := hr.1
          omega
        · have := hr.2 i hi2
          omega

/-- Allocation bounds for `_deep_copy`. -/
theorem deepCopyH_ids (v : HVal) :
    ∀ n : Nat, n ≤ (deepCopyH v n).2 ∧
      ∀ i ∈ containerIds (deepCopyH v n).1,
        n ≤ i ∧ i < (deepCopyH v n).2 := by
  induction v using hvalInduct with
  | hstr s => intro n; simp [deepCopyH, containerIds]
  | hint m => intro n; simp [deepCopyH, containerIds]
  | hbool b => intro n; simp [deepCopyH, containerIds]
  | hnull => intro n; simp [deepCopyH, containerIds]
  | hlist id items ih =>
      intro n
      have h := deepCopyItemsH_ids items ih (n + 1)
      simp only [deepCopyH, containerIds]
      constructor
      · omega
      · intro i hi
        rcases List.mem_cons.mp hi with hi1 | hi2
        · omega
        · have := h.2 i hi2
          omega
  | hdict id entries ih =>
      intro n
      have h := deepCopyEntriesH_ids entries ih (n + 1)
      simp only [deepCopyH, containerIds]
      constructor
      · omega
      · intro i hi
        rcases List.mem_cons.mp hi with hi1 | hi2
        · omega
        · have := h.2 i hi2
          omega

/-- The allocator-passing redaction computes the same value tree as
`_redact_recursive` (identities forgotten). -/
theorem redactRecursiveH_erase (v : HVal) :
    ∀ n : Nat, eraseH (redactRecursiveH v n).1 = redactRecursive (eraseH v) := by
  induction v using hvalInduct with
  | hstr s => intro n; simp [redactRecursiveH, eraseH, redactRecursive]
  | hint m => intro n; simp [redactRecursiveH, eraseH, redactRecursive]
  | hbool b => intro n; simp [redactRecursiveH, eraseH, redactRecursive]
  | hnull => intro n; simp [redactRecursiveH, eraseH, redactRecursive]
  | hlist id items ih =>
      intro n
      simp only [redactRecursiveH, eraseH, redactRecursive]
      congr 1
      have : ∀ (l : List HVal), (∀ v ∈ l, ∀ m : Nat,
          eraseH (redactRecursiveH v m).1 = redactRecursive (eraseH v)) →
          ∀ m : Nat, eraseItemsH (redactItemsH l m).1
            = redactItems (eraseItemsH l) := by
        intro l
        induction l with
        | nil => intro _ m; simp [redactItemsH, eraseItemsH, redactItems]
        | cons w rest ihl =>
            intro hall m
            simp only [redactItemsH, eraseItemsH, redactItems]
            rw [hall w (List.mem_cons_self _ _) m,
              ihl (fun v2 h2 => hall v2 (List.mem_cons_of_mem _ h2))]
      exact this items ih (n + 1)
  | hdict id entries ih =>
      intro n
      simp only [redactRecursiveH, eraseH, redactRecursive]
      congr 1
      have : ∀ (l : List (PyKey × HVal)), (∀ kv ∈ l, ∀ m : Nat,
          eraseH (redactRecursiveH kv.2 m).1 = redactRecursive (eraseH kv.2)) →
          ∀ m : Nat, eraseEntriesH (redactEntriesH l m).1
            = redactEntries (eraseEntriesH l) := by
        intro l
        induction l with
        | nil => intro _ m; simp [redactEntriesH, eraseEntriesH, redactEntries]
        | cons kv rest ihl =>
            intro hall m
            obtain ⟨key, value⟩ := kv
            by_cases hk : REDACT_KEYS_PY.contains (pyKeyLower key) = true
            · simp only [redactEntriesH, hk, if_pos, eraseEntriesH,
                redactEntries, eraseH]
              rw [ihl (fun kv2 h2 => hall kv2 (List.mem_cons_of_mem _ h2))]
            · simp only [redactEntriesH, hk, if_neg, Bool.false_eq_true,
                not_false_iff, eraseEntriesH, redactEntries]
              rw [hall (key, value) (List.mem_cons_self _ _) m,
                ihl (fun kv2 h2 => hall kv2 (List.mem_cons_of_mem _ h2))]
      exact this entries ih (n + 1)

/-- The allocator-passing deep copy computes the same value tree as
`_deep_copy` (identities forgotten). -/
theorem deepCopyH_erase (v : HVal) :
    ∀ n : Nat, eraseH (deepCopyH v n).1 = deepCopy (eraseH v) := by
  induction v using hvalInduct with
  | hstr s => intro n; simp [deepCopyH, eraseH, deepCopy]
  | hint m => intro n; simp [deepCopyH, eraseH, deepCopy]
  | hbool b => intro n; simp [deepCopyH, eraseH, deepCopy]
  | hnull => intro n; simp [deepCopyH, eraseH, deepCopy]
  | hlist id items ih =>
      intro n
      simp only [deepCopyH, eraseH, deepCopy]
      congr 1
      have : ∀ (l : List HVal), (∀ v ∈ l, ∀ m : Nat,
          eraseH (deepCopyH v m).1 = deepCopy (eraseH v)) →
          ∀ m : Nat, eraseItemsH (deepCopyItemsH l m).1
            = deepCopyItems (eraseItemsH l) := by
        intro l
        induction l with
        | nil => intro _ m; simp [deepCopyItemsH, eraseItemsH, deepCopyItems]
        | cons w rest ihl =>
            intro hall m
            simp only [deepCopyItemsH, eraseItemsH, deepCopyItems]
            rw [hall w (List.mem_cons_self _ _) m,
              ihl (fun v2 h2 => hall v2 (List.mem_cons_of_mem _ h2))]
      exact this items ih (n + 1)
  | hdict id entries ih =>
      intro n
      simp only [deepCopyH, eraseH, deepCopy]
      congr 1
      have : ∀ (l : List (PyKey × HVal)), (∀ kv ∈ l, ∀ m : Nat,
          eraseH (deepCopyH kv.2 m).1 = deepCopy (eraseH kv.2)) →
          ∀ m : Nat, eraseEntriesH (deepCopyEntriesH l m).1
            = deepCopyEntries (eraseEntriesH l) := by
        intro l
        induction l with
        | nil =>
            intro _ m
            simp [deepCopyEntriesH, eraseEntriesH, deepCopyEntries]
        | cons kv rest ihl =>
            intro hall m
            obtain ⟨key, value⟩ := kv
            simp only [deepCopyEntriesH, eraseEntriesH, deepCopyEntries]
            rw [hall (key, value) (List.mem_cons_self _ _) m,
              ihl (fun kv2 h2 => hall kv2 (List.mem_cons_of_mem _ h2))]
      exact this entries ih (n + 1)

/-- **C2.** `redact_payload` never mutates its input and shares no mutable
container with it: with every Python container creation modelled as a
fresh allocation (counter starting above all identities of the input),
every container of the result has an identity outside the input — for both
values of `skip_redaction` — and the result tree is exactly the
redaction (resp. the deep copy) of the input tree.  The input itself is
only iterated, never written, so it is unchanged by the call. -/
theorem redact_payload_no_shared_containers (P : HVal) (skip : Bool)
    (n : Nat) (hfresh : ∀ i ∈ containerIds P, i < n) :
    (∀ i ∈ containerIds (redactPayloadH P skip n).1, i ∉ containerIds P) ∧
    eraseH (redactPayloadH P skip n).1 = redact_payload (eraseH P) skip := by
  cases skip with
  | false =>
      constructor
      · intro i hi hmem
        have h := (redactRecursiveH_ids P n).2 i (by
          simpa [redactPayloadH] using hi)
        have := hfresh i hmem
        omega
      · rw [redactPayloadH, if_neg (by simp), redact_payload,
          if_neg (by simp)]
        exact redactRecursiveH_erase P n
  | true =>
      constructor
      · intro i hi hmem
        have h := (deepCopyH_ids P n).2 i (by
          simpa [redactPayloadH] using hi)
        have := hfresh i hmem
        omega
      · rw [redactPayloadH, if_pos rfl, redact_payload, if_pos rfl]
        exact deepCopyH_erase P n

/-- Witness for C2 at a concrete heap tree: a dict (identity 0) holding a
sensitive key with a list (identity 1) below it, allocator starting at
2. -/
theorem redact_payload_no_shared_containers_witness :
    (∀ i ∈ containerIds (redactPayloadH
      (.hdict 0 [(.kstr "token", .hlist 1 [.hint 3])]) false 2).1,
      i ∉ containerIds
        (HVal.hdict 0 [(.kstr "token", .hlist 1 [.hint 3])])) ∧
    eraseH (redactPayloadH
      (.hdict 0 [(.kstr "token", .hlist 1 [.hint 3])]) false 2).1 =
      redact_payload
        (eraseH (.hdict 0 [(.kstr "token", .hlist 1 [.hint 3])])) false :=
  redact_payload_no_shared_containers
    (.hdict 0 [(.kstr "token", .hlist 1 [.hint 3])]) false 2
    (by decide)

end FulcrumSdk
